import Mathlib

/-!
Verification of the bitmap validation core of `create-lasereyes`.

This file gives a shallow embedding, in Lean 4, of the bitmap on-chain-index
(OCI) module (`bitmap-oci.ts`) and of the bitmap/parcel validation utilities
(`utils.ts`), and proves properties of that embedding.

Modelling conventions:
* JavaScript numbers are modelled as `Int` (all numbers handled by this code
  are integral; `NaN` cannot arise for `Int` inputs, mirroring the
  `isNaN` guard being inert on integer inputs).
* Network I/O is modelled by an explicit environment `Env` of oracle
  functions: `none` / an error constructor models a failed fetch (rejected
  promise or non-ok HTTP response), `some` a successful one.
* JavaScript exceptions are modelled with `Except String`; `try/catch`
  becomes a `match` on the `Except` value.
* JavaScript strings are compared (`<`) by code units; this is modelled by
  `strLt` on the underlying character list (lexicographic by code point).
  String helpers (`split`, `trim`, `endsWith`, `includes`, `parseInt`) are
  reimplemented structurally over `String.data` so that they are fully
  reducible.
-/

namespace CreateLasereyes

/-! ## String primitives (JS semantics) -/

/-- Lexicographic order on character lists by code point: the model of the
JavaScript `<` operator on strings. -/
def charListLt : List Char → List Char → Bool
  | [], [] => false
  | [], _ :: _ => true
  | _ :: _, [] => false
  | a :: as, b :: bs =>
    if a.toNat < b.toNat then true
    else if b.toNat < a.toNat then false
    else charListLt as bs

/-- JavaScript string `<`. -/
def strLt (a b : String) : Bool := charListLt a.data b.data

/-- Auxiliary splitter: accumulates the current (reversed) fragment. -/
def splitDotAux (acc : List Char) : List Char → List (List Char)
  | [] => [acc.reverse]
  | c :: cs =>
    if c = '.' then acc.reverse :: splitDotAux [] cs
    else splitDotAux (c :: acc) cs

/-- The model of JavaScript `s.split('.')`. -/
def splitDot (s : String) : List String :=
  (splitDotAux [] s.data).map (fun cs => ⟨cs⟩)

/-- Whitespace as skipped by JavaScript `trim` / `parseInt` (the common
ASCII whitespace characters; the inputs of interest contain no exotic
Unicode whitespace). -/
def isWsChar (c : Char) : Bool :=
  c = ' ' || c = '\t' || c = '\n' || c = '\r'

/-- The model of JavaScript `s.trim()`. -/
def trimStr (s : String) : String :=
  ⟨((s.data.dropWhile isWsChar).reverse.dropWhile isWsChar).reverse⟩

/-- The model of JavaScript `s.endsWith(suffix)`. -/
def endsWithStr (s suffix : String) : Bool :=
  suffix.data.isSuffixOf s.data

/-- Substring occurrence on character lists. -/
def hasSubList : List Char → List Char → Bool
  | hay, pat =>
    pat.isPrefixOf hay ||
      match hay with
      | [] => false
      | _ :: t => hasSubList t pat

/-- The model of JavaScript `s.includes(sub)`. -/
def includesStr (s sub : String) : Bool := hasSubList s.data sub.data

/-- Numeric value of a (non-empty) list of decimal digit characters. -/
def digitsToNat (ds : List Char) : Nat :=
  ds.foldl (fun a c => a * 10 + (c.toNat - 48)) 0

/-- Decimal-digit prefix of a character list, as a number; `none` when the
list does not start with a digit. -/
def digitsPrefixVal (cs : List Char) : Option Nat :=
  match cs.takeWhile Char.isDigit with
  | [] => none
  | ds => some (digitsToNat ds)

/-- The model of JavaScript `parseInt(s, 10)`: skip leading whitespace, read
an optional sign and then the longest digit prefix; `none` models `NaN`.
(JavaScript `-0` compares equal to `0`, as does `-0 : Int` here.) -/
def parseIntJS (s : String) : Option Int :=
  match s.data.dropWhile isWsChar with
  | '-' :: rest => (digitsPrefixVal rest).map (fun n => -(n : Int))
  | '+' :: rest => (digitsPrefixVal rest).map (fun n => (n : Int))
  | cs => (digitsPrefixVal cs).map (fun n => (n : Int))

/-! ## The remote environment

All I/O performed by the code is read-only HTTP GET against ordinals.com.
An `Env` fixes the behaviour of every endpoint for one run. -/

/-- Response of the `/r/children/{id}[/{page}]` endpoint: either a JSON body
`(ids, more)` or an HTTP error with its status code (a rejected fetch is
modelled the same way as an error status, both throw in the source). -/
inductive ChildResp where
  | ok (ids : List String) (more : Bool)
  | httpErr (status : Nat)
deriving DecidableEq

/-- The remote data service.

* `pageFlat p`: the parsed payload for OCI page `p` when `p` is 2 or 3 — a
  single flat JSON array (deltas followed by the permutation), which the
  source repairs by wrapping in brackets (`data = '[' + data + ']'`) before
  parsing and then slicing in two.
* `pagePair p`: the parsed payload for the other pages — the pair of the
  delta array and the permutation array.
* `satAt sat index`: the `id` field of `/r/sat/{sat}/at/{index}`; `none`
  models a failed fetch.
* `contentOf id`: the raw text of `/content/{id}` (before `trim`).
* `heightOf id`: the `height` field of `/r/inscription/{id}`.  The endpoint
  also echoes the inscription's own `id` field, which therefore always
  equals the queried identifier; the model uses the queried identifier
  directly where the source reads `details.id`.
* `blockinfo h`: the `transaction_count` field of `/r/blockinfo/{h}`.
* `childrenOf id page`: the `/r/children/...` endpoint. -/
structure Env where
  pageFlat : Nat → List Int
  pagePair : Nat → List Int × List Nat
  satAt : Int → Nat → Option String
  contentOf : String → Option String
  heightOf : String → Option Int
  blockinfo : Int → Option Int
  childrenOf : String → Nat → ChildResp

/-! ## `bitmap-oci.ts` -/

/-- Cumulative-sum reconstruction of absolute sat numbers from deltas
(`fullSats` in `fillPage`): index 0 is absolute, index `i > 0` is
`fullSats[i-1] + delta[i]`.  `acc` is the previous running total. -/
def rebuildSatsAux (acc : Int) : List Int → List Int
  | [] => []
  | d :: ds => (acc + d) :: rebuildSatsAux (acc + d) ds

/-- The `fullSats` array built by `fillPage`. -/
def rebuildSats : List Int → List Int
  | [] => []
  | d :: ds => d :: rebuildSatsAux d ds

/-- Write each reconstructed sat into slot `perm[i]` of the dense array
(`filledArray[index] = fullSats[i]` in the source). -/
def scatterSats (perm : List Nat) (sats : List Int) : List Int :=
  (perm.zip sats).foldl (fun acc p => acc.set p.1 p.2) (List.replicate 100000 0)

/-- `fillPage` from `bitmap-oci.ts`: decode one page into its dense array of
100,000 sat numbers.  For pages 2 and 3 the flat payload is repaired by
`parsedData.slice(0, 99999)` (the deltas) and
`parsedData.slice(100000, 199999)` (the permutation) — JavaScript `slice`
excludes the end index, modelled by `take`/`drop` below.  The module-level
`pages` cache only memoises this pure computation and is dropped from the
model. -/
def fillPage (env : Env) (page : Nat) : List Int :=
  let parsed :=
    if page = 2 ∨ page = 3 then
      let flat := env.pageFlat page
      (flat.take 99999, ((flat.drop 100000).take 99999).map Int.toNat)
    else env.pagePair page
  scatterSats parsed.2 (rebuildSats parsed.1)

/-- `getBitmapSat` from `bitmap-oci.ts`. -/
def getBitmapSat (env : Env) (bitmapNumber : Int) : Except String Int :=
  if bitmapNumber < 0 then
    .error "getBitmapSat: number is below 0!"
  else if bitmapNumber > 839999 then
    .error "getBitmapSat: number is above 839,999!"
  else
    let page := (bitmapNumber / 100000).toNat
    .ok ((fillPage env page).getD (bitmapNumber % 100000).toNat 0)

/-- The `satIndices` exception table from `bitmap-oci.ts`, verbatim. -/
def satIndices : List (Int × Nat) :=
  [(92871, 1), (92970, 1), (123132, 1), (365518, 1), (700181, 1), (826151, 1),
   (827151, 1), (828151, 1), (828239, 1), (828661, 1), (829151, 1), (830151, 1),
   (832104, 2), (832249, 2), (832252, 2), (832385, 4), (833067, 1), (833101, 3),
   (833105, 4), (833109, 4), (833121, 8), (834030, 2), (834036, 2), (834051, 17),
   (834073, 4), (836151, 1), (837115, 2), (837120, 2), (837151, 1), (837183, 3),
   (837188, 2), (838058, 5), (838068, 2), (838076, 2), (838096, 1), (838151, 1),
   (838821, 1), (839151, 1), (839377, 1), (839378, 2), (839382, 2), (839397, 1),
   (840151, 1), (841151, 1), (842151, 1), (845151, 1)]

/-- `getBitmapSatIndex` from `bitmap-oci.ts`:
`satIndices[bitmapNumber] || 0`. -/
def getBitmapSatIndex (bitmapNumber : Int) : Nat :=
  (satIndices.lookup bitmapNumber).getD 0

/-- `getBitmapInscriptionId` from `bitmap-oci.ts`: resolve the sat, then ask
`/r/sat/{sat}/at/{index}` for the canonical inscription id.  A failed fetch
(or missing `id` field) rejects, modelled by the error branch. -/
def getBitmapInscriptionId (env : Env) (bitmapNumber : Int) : Except String String :=
  match getBitmapSat env bitmapNumber with
  | .error e => .error e
  | .ok sat =>
    match env.satAt sat (getBitmapSatIndex bitmapNumber) with
    | some id => .ok id
    | none => .error "Failed to fetch sat inscription"

/-! ## `utils.ts`: types -/

/-- `BitmapValidationStatus` from `utils.ts`. -/
inductive BitmapValidationStatus where
  | valid
  | invalid
  | pending
  | unknown
deriving DecidableEq

/-- A winning parcel entry as stored in `validParcels`:
`{ ...validParcel, height: childInscriptionDetails.height }`. -/
structure Candidate where
  id : String
  content : String
  height : Int
deriving DecidableEq

/-- The `details` field of `BitmapValidationResult` (all members optional in
the source; absent = `none`). -/
structure ValidationDetails where
  bitmapNumber : Option Int := none
  parcelNumber : Option Int := none
  inscriptionId : Option String := none
  isParcel : Option Bool := none
  validParcels : Option (List Candidate) := none
  allChildren : Option (List String) := none
deriving DecidableEq

/-- `BitmapValidationResult` from `utils.ts`. -/
structure BitmapValidationResult where
  status : BitmapValidationStatus
  message : Option String := none
  details : Option ValidationDetails := none
deriving DecidableEq

/-! ## `utils.ts`: fetch helpers -/

/-- `getBitmap` from `utils.ts`: range-check the number, then resolve the
inscription id through the OCI module (re-thrown errors propagate
unchanged). -/
def getBitmap (env : Env) (bitmapNumber : Int) : Except String String :=
  if bitmapNumber < 0 then
    .error ("Invalid bitmap number: " ++ toString bitmapNumber)
  else if bitmapNumber ≥ 840000 then
    .error ("Bitmap #" ++ toString bitmapNumber ++ " is above validation limit")
  else
    getBitmapInscriptionId env bitmapNumber

/-- `getInscriptionDetails` from `utils.ts`: the `height` of
`/r/inscription/{id}` (the `id` field of the response is the queried id). -/
def getInscriptionDetails (env : Env) (inscriptionId : String) : Except String Int :=
  match env.heightOf inscriptionId with
  | some h => .ok h
  | none => .error "Failed to fetch inscription details"

/-- `fetchInscriptionContent` from `utils.ts`: the trimmed text of
`/content/{id}`. -/
def fetchInscriptionContent (env : Env) (inscriptionId : String) : Except String String :=
  match env.contentOf inscriptionId with
  | some s => .ok (trimStr s)
  | none => .error "Failed to fetch content"

/-- The pagination loop of `getChildrenInscriptions`.  The source `while
(true)` loop is cut by explicit fuel (each iteration performs one page
fetch); every stopping condition of the source is a `break` that returns the
ids accumulated so far — the `try/catch` inside the loop turns every HTTP
error or rejected fetch into such a `break`, including the dedicated
404-on-first-page case. -/
def getChildrenGo (env : Env) (inscriptionId : String) :
    Nat → Nat → List String → List String
  | 0, _, acc => acc
  | fuel + 1, page, acc =>
    match env.childrenOf inscriptionId page with
    | .httpErr _ => acc
    | .ok ids more =>
      if ids = [] then acc
      else if more then getChildrenGo env inscriptionId fuel (page + 1) (acc ++ ids)
      else acc ++ ids

/-- `getChildrenInscriptions` from `utils.ts`. -/
def getChildrenInscriptions (env : Env) (fuel : Nat) (inscriptionId : String) :
    List String :=
  getChildrenGo env inscriptionId fuel 0 []

/-! ## `utils.ts`: parcel validation -/

/-- The surviving value of `isValidParcel`: `{ id: childId, content }`. -/
structure ParcelCheck where
  id : String
  content : String
deriving DecidableEq

/-- The pure part of `isValidParcel` from `utils.ts`: the format and
eligibility checks applied to the fetched content. -/
def checkParcelContent (content : String) (childId : String) (parentId : Int)
    (txCount : Option Int) : Option ParcelCheck :=
  match splitDot content with
  | [parcelStr, blockStr, suffixStr] =>
    if suffixStr ≠ "bitmap" then none
    else if blockStr ≠ toString parentId then none
    else
      match parseIntJS parcelStr with
      | none => none
      | some parcelNum =>
        if parcelNum < 0 then none
        else
          match txCount with
          | some t => if parcelNum ≥ t then none else some ⟨childId, content⟩
          | none => some ⟨childId, content⟩
  | _ => none

/-- `isValidParcel` from `utils.ts`.  `none` models the `false` return (the
child is dropped); the surrounding `try/catch` maps a failed content fetch
to `false` as well. -/
def isValidParcel (env : Env) (childId : String) (parentId : Int)
    (txCount : Option Int) : Option ParcelCheck :=
  match fetchInscriptionContent env childId with
  | .error _ => none
  | .ok content => checkParcelContent content childId parentId txCount

/-- The key of the winner map (`parcelTimestamps`):
`validParcel.content.split('.')[0]`. -/
def parcelKey (c : Candidate) : String := (splitDot c.content).headD ""

/-- The source's replacement condition:
`details.height < current.height || (details.height === current.height &&
details.id < current.id)`. -/
def betterCand (nw cur : Candidate) : Bool :=
  decide (nw.height < cur.height) ||
    (decide (nw.height = cur.height) && strLt nw.id cur.id)

/-- Winner map: association list keyed by the parcel-number string, in key
insertion order (JavaScript object property order). -/
def WinnerMap := List (String × Candidate)

/-- Lookup in the winner map (`parcelTimestamps[parcelNumber]`). -/
def lookupW : List (String × Candidate) → String → Option Candidate
  | [], _ => none
  | (k', c) :: rest, k => if k' = k then some c else lookupW rest k

/-- In-place update of the winner map
(`parcelTimestamps[parcelNumber] = ...`): overwrite the existing key or
append a new one. -/
def updateW : List (String × Candidate) → String → Candidate → List (String × Candidate)
  | [], k, c => [(k, c)]
  | (k', c') :: rest, k, c =>
    if k' = k then (k', c) :: rest else (k', c') :: updateW rest k c

/-- One tie-break step of `validateBitmap`: record the candidate if its
parcel number has no winner yet or it beats the current winner. -/
def stepWinner (m : List (String × Candidate)) (c : Candidate) :
    List (String × Candidate) :=
  match lookupW m (parcelKey c) with
  | none => updateW m (parcelKey c) c
  | some cur => if betterCand c cur then updateW m (parcelKey c) c else m

/-- The reduction of a list of candidates to the winner map.  The source
runs the child validations as concurrent promises whose compare-and-set
updates are individually atomic (no `await` between the read and the
write), so one run performs exactly this fold in some arrival order. -/
def winnersMap (cs : List Candidate) : List (String × Candidate) :=
  cs.foldl stepWinner []

/-- The child-processing phase of `validateBitmap`: for each child, run
`isValidParcel`; survivors get their inscription details fetched — this
fetch is outside any `try/catch`, so its failure rejects the whole
`Promise.all` — and enter the tie-break. -/
def processChildren (env : Env) (parentId : Int) (txCount : Option Int) :
    List String → List (String × Candidate) → Except String (List (String × Candidate))
  | [], m => .ok m
  | childId :: rest, m =>
    match isValidParcel env childId parentId txCount with
    | none => processChildren env parentId txCount rest m
    | some pc =>
      match getInscriptionDetails env pc.id with
      | .error e => .error e
      | .ok h => processChildren env parentId txCount rest (stepWinner m ⟨pc.id, pc.content, h⟩)

/-! ## `utils.ts`: public validation entry points -/

/-- The guard `inscriptionId && actualInscriptionId !== inscriptionId` of
`validateBitmap` (JavaScript truthiness: an empty string is falsy). -/
def idMismatch (actualId : String) : Option String → Bool
  | none => false
  | some iid => iid ≠ "" && actualId ≠ iid

/-- The body of `validateBitmap` (everything inside its `try`).  Thrown
errors are the `Except.error` branch; each `return` is an `Except.ok`. -/
def validateBitmapBody (env : Env) (fuel : Nat) (bitmapNumber : Int)
    (inscriptionId : Option String) : Except String BitmapValidationResult :=
  match getBitmap env bitmapNumber with
  | .error e => .error e
  | .ok actualId =>
    if idMismatch actualId inscriptionId then
      .ok { status := .invalid,
            message := some "Inscription ID does not match bitmap number",
            details := some { bitmapNumber := some bitmapNumber,
                              inscriptionId := some actualId } }
    else
      match getInscriptionDetails env actualId with
      | .error e => .error e
      | .ok _ =>
        match fetchInscriptionContent env actualId with
        | .error e => .error e
        | .ok content =>
          if !includesStr content (toString bitmapNumber) ||
              !endsWithStr content ".bitmap" then
            .ok { status := .invalid,
                  message := some "Invalid bitmap content",
                  details := some { bitmapNumber := some bitmapNumber,
                                    inscriptionId := some actualId } }
          else
            -- block info is fetched inside its own try/catch: a failure
            -- just leaves txCount (inlined below) undefined; it is skipped
            -- entirely for block 0.  The source's aliases txCount,
            -- childrenInscriptions and validParcels are inlined.
            match processChildren env bitmapNumber
                (if bitmapNumber = 0 then none else env.blockinfo bitmapNumber)
                (getChildrenInscriptions env fuel actualId) [] with
            | .error e => .error e
            | .ok m =>
              -- the for-in collection loop; JavaScript enumerates the
              -- integer-like keys in ascending numeric order, the model
              -- keeps key-insertion order (no stated property depends on
              -- the enumeration order of validParcels)
              .ok { status := .valid,
                    message := some ("Bitmap " ++ toString bitmapNumber ++
                      " is valid with " ++ toString (m.map (fun p => p.2)).length ++
                      " parcels"),
                    details := some { bitmapNumber := some bitmapNumber,
                                      inscriptionId := some actualId,
                                      validParcels := some (m.map (fun p => p.2)),
                                      allChildren :=
                                        some (getChildrenInscriptions env fuel actualId) } }

/-- `validateBitmap` from `utils.ts`: the body wrapped in its catch-all,
which converts any thrown error into an `invalid` result carrying the error
message. -/
def validateBitmap (env : Env) (fuel : Nat) (bitmapNumber : Int)
    (inscriptionId : Option String) : BitmapValidationResult :=
  match validateBitmapBody env fuel bitmapNumber inscriptionId with
  | .ok r => r
  | .error e =>
    { status := .invalid,
      message := some e,
      details := some { bitmapNumber := some bitmapNumber,
                        inscriptionId := inscriptionId } }

/-- `validateBitmapParcel` from `utils.ts`.  Its `try` body cannot throw
(the inner `validateBitmap` already catches), so the catch branch is
unreachable and omitted. -/
def validateBitmapParcel (env : Env) (fuel : Nat) (bitmapNumber parcelNumber : Int)
    (parcelInscriptionId : Option String) : BitmapValidationResult :=
  let bitmapResult := validateBitmap env fuel bitmapNumber none
  if bitmapResult.status ≠ .valid then
    { bitmapResult with
      details := some { bitmapResult.details.getD {} with
                        parcelNumber := some parcelNumber,
                        isParcel := some true } }
  else
    -- `validParcels`, `targetContent` and `targetParcel` of the source are
    -- plain aliases, inlined here
    match parcelInscriptionId,
      (((bitmapResult.details.getD {}).validParcels).getD []).find?
        (fun p => p.content =
          toString parcelNumber ++ "." ++ toString bitmapNumber ++ ".bitmap") with
    | some pid, some t =>
      if pid ≠ "" && t.id ≠ pid then
        { status := .invalid,
          message := some "Parcel inscription ID does not match expected ID",
          details := some { bitmapNumber := some bitmapNumber,
                            parcelNumber := some parcelNumber,
                            isParcel := some true,
                            inscriptionId := some pid } }
      else
        { status := .valid,
          message := some ("Parcel " ++ toString parcelNumber ++ "." ++
            toString bitmapNumber ++ ".bitmap is valid"),
          details := some { bitmapNumber := some bitmapNumber,
                            parcelNumber := some parcelNumber,
                            isParcel := some true,
                            inscriptionId := some t.id,
                            validParcels := some [t] } }
    | _, none =>
      { status := .invalid,
        message := some ("Parcel " ++ toString parcelNumber ++
          " not found or invalid for bitmap " ++ toString bitmapNumber),
        details := some { bitmapNumber := some bitmapNumber,
                          parcelNumber := some parcelNumber,
                          isParcel := some true,
                          inscriptionId := (bitmapResult.details.getD {}).inscriptionId } }
    | none, some t =>
      { status := .valid,
        message := some ("Parcel " ++ toString parcelNumber ++ "." ++
          toString bitmapNumber ++ ".bitmap is valid"),
        details := some { bitmapNumber := some bitmapNumber,
                          parcelNumber := some parcelNumber,
                          isParcel := some true,
                          inscriptionId := some t.id,
                          validParcels := some [t] } }

/-- The regular expression `^(\d+)(?:\.(\d+))?\.bitmap$` of
`validateBitmapContent`.  A string matches iff splitting it on `'.'` yields
`[digits, "bitmap"]` or `[digits, digits, "bitmap"]` with non-empty digit
groups (split fragments never contain a dot, so the two readings coincide);
the returned numbers are the two captured groups. -/
def matchBitmapContent (s : String) : Option (Nat × Option Nat) :=
  match splitDot s with
  | [a, b] =>
    if a.data ≠ [] && a.data.all Char.isDigit && b = "bitmap" then
      some (digitsToNat a.data, none)
    else none
  | [a, b, c] =>
    if a.data ≠ [] && a.data.all Char.isDigit &&
        b.data ≠ [] && b.data.all Char.isDigit && c = "bitmap" then
      some (digitsToNat a.data, some (digitsToNat b.data))
    else none
  | _ => none

/-- `validateBitmapContent` from `utils.ts`: match the grammar and dispatch;
a malformed string is rejected up front (the result touches neither the
environment nor the fuel: no network is involved). -/
def validateBitmapContent (env : Env) (fuel : Nat) (content : String)
    (inscriptionId : Option String) : BitmapValidationResult :=
  match matchBitmapContent content with
  | none =>
    { status := .invalid,
      message := some "Invalid bitmap format. Expected format: \"number.bitmap\" or \"parcel.block.bitmap\"" }
  | some (firstNumber, none) =>
    validateBitmap env fuel (firstNumber : Int) inscriptionId
  | some (firstNumber, some secondNumber) =>
    validateBitmapParcel env fuel (secondNumber : Int) (firstNumber : Int) inscriptionId

/-! ## Derived definitions used by the statements -/

/-- Invariant of the tie-break fold: after processing the candidates of
`seen`, the map holds, for each parcel-number key, a candidate of `seen`
with that key that no processed candidate with the same key beats; keys
without winner have no candidate. -/
def winnerInv (seen : List Candidate) (m : List (String × Candidate)) : Prop :=
  ∀ k : String,
    (lookupW m k = none → ∀ c ∈ seen, parcelKey c ≠ k) ∧
    (∀ w, lookupW m k = some w →
      w ∈ seen ∧ parcelKey w = k ∧ ∀ c ∈ seen, parcelKey c = k → betterCand c w = false)

/-- The candidates surviving `isValidParcel` together with their fetched
heights, in child order. -/
def candidatesOf (env : Env) (parentId : Int) (txCount : Option Int)
    (children : List String) : List Candidate :=
  children.filterMap fun childId =>
    match isValidParcel env childId parentId txCount with
    | none => none
    | some pc => (env.heightOf pc.id).map fun h => ⟨pc.id, pc.content, h⟩

/-! ## Spec-side reference definitions (for refinement comparisons) -/

/-- Modelled from the claim, not from the source (C4's reading of the
survival condition): the middle fragment equals the parent's decimal
string, the first fragment is itself a non-negative integer — a non-empty
string of decimal digits — and its value is below the transaction count
when that is known. -/
def specParcelSurvives (content : String) (parentId : Int) (txCount : Option Int) : Bool :=
  match splitDot content with
  | [a, b, suffixStr] =>
    suffixStr = "bitmap" && b = toString parentId &&
      a.data ≠ [] && a.data.all Char.isDigit &&
      (match txCount with
       | some t => decide ((digitsToNat a.data : Int) < t)
       | none => true)
  | _ => false

/-- Modelled from the spec (§4.4 `fetchChildren`, the behaviour C7 claims):
follow pagination while `more` is true and the batch non-empty; a 404 on
the first page is "no children"; any other HTTP error fails with
`RemoteLookupError` surfaced to the caller. -/
def getChildrenSpecGo (env : Env) (inscriptionId : String) :
    Nat → Nat → List String → Except String (List String)
  | 0, _, acc => .ok acc
  | fuel + 1, page, acc =>
    match env.childrenOf inscriptionId page with
    | .httpErr status =>
      if status = 404 ∧ page = 0 then .ok acc else .error "RemoteLookupError"
    | .ok ids more =>
      if ids = [] then .ok acc
      else if more then getChildrenSpecGo env inscriptionId fuel (page + 1) (acc ++ ids)
      else .ok (acc ++ ids)

/-- Modelled from the spec: `fetchChildren` as specified in §4.4. -/
def getChildrenSpec (env : Env) (fuel : Nat) (inscriptionId : String) :
    Except String (List String) :=
  getChildrenSpecGo env inscriptionId fuel 0 []

/-! ## Concrete environments for witnesses and counterexamples -/

/-- The inert environment: every fetch fails, every page is empty. -/
def env0 : Env where
  pageFlat := fun _ => []
  pagePair := fun _ => ([], [])
  satAt := fun _ _ => none
  contentOf := fun _ => none
  heightOf := fun _ => none
  blockinfo := fun _ => none
  childrenOf := fun _ _ => .httpErr 500

/-- A well-formed flat payload for page 2: 100,000 deltas reconstructing the
positive sats 1, 2, ..., 100000, followed by the identity permutation of
0, ..., 99999. -/
def page2Payload : List Int :=
  List.replicate 100000 1 ++ (List.range 100000).map Int.ofNat

/-- Environment whose page 2 carries `page2Payload`. -/
def envPage2 : Env := { env0 with pageFlat := fun _ => page2Payload }

/-- Environment for the C1 witness: two children of bitmap 9, both valid
parcels of parcel number 0, with equal heights. -/
def envC1w : Env :=
  { env0 with
    contentOf := fun id =>
      if id = "cb" then some "0.9.bitmap"
      else if id = "ca" then some "0.9.bitmap"
      else none,
    heightOf := fun id =>
      if id = "cb" then some 10 else if id = "ca" then some 10 else none }

/-- Environment for the C4 counterexample: a child whose content's first
dot-fragment `"5x"` is not an integer, but has the numeric prefix 5. -/
def envC4 : Env :=
  { env0 with
    contentOf := fun id => if id = "c1" then some "5x.177700.bitmap" else none }

/-- Environment for the C4 witness: the two end-to-end parcel contents of
the claim, against parent 177700. -/
def envC4w : Env :=
  { env0 with
    contentOf := fun id =>
      if id = "c6" then some "6.177700.bitmap"
      else if id = "c5" then some "5.177700.bitmap"
      else none }

/-- Environment for the C5 counterexample (content-fetch failure): bitmap 1
resolves to inscription "root" (sat 5 at position 1 of page 0) with two
children, of which "cbad" has a failing content fetch and "cgood" is a
valid parcel. -/
def envA : Env where
  pageFlat := fun _ => []
  pagePair := fun _ => ([5], [1])
  satAt := fun s i => if s = 5 ∧ i = 0 then some "root" else none
  contentOf := fun id =>
    if id = "root" then some "1.bitmap"
    else if id = "cgood" then some "0.1.bitmap"
    else none
  heightOf := fun id =>
    if id = "root" then some 800 else if id = "cgood" then some 100 else none
  blockinfo := fun _ => some 2
  childrenOf := fun _ p => if p = 0 then .ok ["cbad", "cgood"] false else .httpErr 404

/-- Environment for the C5 counterexample (details-fetch failure): like
`envA`, but both children have fetchable valid parcel contents while the
details fetch of "cbad2" fails. -/
def envB : Env where
  pageFlat := fun _ => []
  pagePair := fun _ => ([5], [1])
  satAt := fun s i => if s = 5 ∧ i = 0 then some "root" else none
  contentOf := fun id =>
    if id = "root" then some "1.bitmap"
    else if id = "cgood" then some "0.1.bitmap"
    else if id = "cbad2" then some "1.1.bitmap"
    else none
  heightOf := fun id =>
    if id = "root" then some 800 else if id = "cgood" then some 100 else none
  blockinfo := fun _ => some 2
  childrenOf := fun _ p => if p = 0 then .ok ["cgood", "cbad2"] false else .httpErr 404

/-- Environment for the C7 counterexample: the children endpoint answers
500 on every page. -/
def env500 : Env := { env0 with childrenOf := fun _ _ => .httpErr 500 }

/-- Environment for the C7 witness: two pages of children. -/
def envC7w : Env :=
  { env0 with
    childrenOf := fun _ p =>
      if p = 0 then .ok ["a"] true
      else if p = 1 then .ok ["b"] false
      else .httpErr 404 }

/-- Environment for the C6 witness: page 0 carries the claim's synthetic
deltas and permutation. -/
def envC6 : Env := { env0 with pagePair := fun _ => ([100, 5, -2], [2, 0, 1]) }

/-! ## Properties of the string order -/

theorem charListLt_irrefl (l : List Char) : charListLt l l = false := by
  induction l with
  | nil => rfl
  | cons c cs ih => simp [charListLt, ih]

theorem charListLt_trans {a b c : List Char} (h1 : charListLt a b = true)
    (h2 : charListLt b c = true) : charListLt a c = true := by
  induction a generalizing b c with
  | nil =>
    cases c with
    | nil =>
      cases b with
      | nil => exact absurd h1 (by simp [charListLt])
      | cons y ys => exact absurd h2 (by simp [charListLt])
    | cons z zs => simp [charListLt]
  | cons x xs ih =>
    cases b with
    | nil => exact absurd h1 (by simp [charListLt])
    | cons y ys =>
      cases c with
      | nil => exact absurd h2 (by simp [charListLt])
      | cons z zs =>
        simp only [charListLt] at h1 h2 ⊢
        by_cases hxy : x.toNat < y.toNat
        · by_cases hyz : y.toNat < z.toNat
          · have hxz : x.toNat < z.toNat := by omega
            simp [hxz]
          · by_cases hzy : z.toNat < y.toNat
            · rw [if_neg hyz, if_pos hzy] at h2
              exact absurd h2 (by simp)
            · have hxz : x.toNat < z.toNat := by omega
              simp [hxz]
        · by_cases hyx : y.toNat < x.toNat
          · rw [if_neg hxy, if_pos hyx] at h1
            exact absurd h1 (by simp)
          · rw [if_neg hxy, if_neg hyx] at h1
            by_cases hyz : y.toNat < z.toNat
            · have hxz : x.toNat < z.toNat := by omega
              simp [hxz]
            · by_cases hzy : z.toNat < y.toNat
              · rw [if_neg hyz, if_pos hzy] at h2
                exact absurd h2 (by simp)
              · rw [if_neg hyz, if_neg hzy] at h2
                have hxz1 : ¬ x.toNat < z.toNat := by omega
                have hxz2 : ¬ z.toNat < x.toNat := by omega
                rw [if_neg hxz1, if_neg hxz2]
                exact ih h1 h2

theorem charListLt_antisymm {a b : List Char} (h1 : charListLt a b = false)
    (h2 : charListLt b a = false) : a = b := by
  induction a generalizing b with
  | nil =>
    cases b with
    | nil => rfl
    | cons y ys => exact absurd h1 (by simp [charListLt])
  | cons x xs ih =>
    cases b with
    | nil => exact absurd h2 (by simp [charListLt])
    | cons y ys =>
      simp only [charListLt] at h1 h2
      by_cases hxy : x.toNat < y.toNat
      · rw [if_pos hxy] at h1
        exact absurd h1 (by simp)
      · by_cases hyx : y.toNat < x.toNat
        · rw [if_pos hyx] at h2
          exact absurd h2 (by simp)
        · rw [if_neg hxy, if_neg hyx] at h1
          rw [if_neg hyx, if_neg hxy] at h2
          have hn : x.toNat = y.toNat := by omega
          have hx : x = y := Char.eq_of_val_eq (UInt32.ext hn)
          subst hx
          exact congrArg (x :: ·) (ih h1 h2)

theorem strLt_irrefl (s : String) : strLt s s = false := charListLt_irrefl s.data

theorem strLt_trans {a b c : String} (h1 : strLt a b = true) (h2 : strLt b c = true) :
    strLt a c = true := charListLt_trans h1 h2

theorem strLt_antisymm {a b : String} (h1 : strLt a b = false) (h2 : strLt b a = false) :
    a = b := by
  cases a with
  | mk da =>
    cases b with
    | mk db => exact congrArg String.mk (charListLt_antisymm h1 h2)

/-! ## Properties of the tie-break relation -/

theorem betterCand_irrefl (c : Candidate) : betterCand c c = false := by
  simp [betterCand, strLt_irrefl]

theorem betterCand_trans {a b c : Candidate} (h1 : betterCand a b = true)
    (h2 : betterCand b c = true) : betterCand a c = true := by
  simp only [betterCand, Bool.or_eq_true, Bool.and_eq_true, decide_eq_true_eq] at h1 h2 ⊢
  rcases h1 with h1 | ⟨h1e, h1s⟩
  · rcases h2 with h2 | ⟨h2e, h2s⟩
    · exact Or.inl (lt_trans h1 h2)
    · exact Or.inl (h2e ▸ h1)
  · rcases h2 with h2 | ⟨h2e, h2s⟩
    · exact Or.inl (h1e ▸ h2)
    · exact Or.inr ⟨h1e.trans h2e, strLt_trans h1s h2s⟩

theorem betterCand_false_antisymm {a b : Candidate} (h1 : betterCand a b = false)
    (h2 : betterCand b a = false) : a.height = b.height ∧ a.id = b.id := by
  simp only [betterCand, Bool.or_eq_false_iff, Bool.and_eq_false_iff,
    decide_eq_false_iff_not, not_lt] at h1 h2
  obtain ⟨hab, hab2⟩ := h1
  obtain ⟨hba, hba2⟩ := h2
  have he : a.height = b.height := le_antisymm hba hab
  refine ⟨he, ?_⟩
  rcases hab2 with h | h
  · exact absurd he h
  · rcases hba2 with h' | h'
    · exact absurd he.symm h'
    · exact strLt_antisymm h h'

/-! ## Properties of the winner map -/

theorem lookupW_updateW_self (m : List (String × Candidate)) (k : String) (c : Candidate) :
    lookupW (updateW m k c) k = some c := by
  induction m with
  | nil => simp [updateW, lookupW]
  | cons p rest ih =>
    by_cases h : p.1 = k
    · simp [updateW, h, lookupW]
    · simp [updateW, h, lookupW, ih]

theorem lookupW_updateW_ne (m : List (String × Candidate)) (k k' : String) (c : Candidate)
    (h : k ≠ k') : lookupW (updateW m k c) k' = lookupW m k' := by
  induction m with
  | nil => simp [updateW, lookupW, h]
  | cons p rest ih =>
    by_cases hp : p.1 = k
    · simp [updateW, hp, lookupW, h]
    · simp only [updateW, hp, if_false, lookupW]
      by_cases hp' : p.1 = k'
      · simp [hp']
      · simp [hp', ih]

theorem mem_updateW {m : List (String × Candidate)} {k0 : String} {c0 : Candidate}
    {p : String × Candidate} (h : p ∈ updateW m k0 c0) : p ∈ m ∨ p = (k0, c0) := by
  induction m with
  | nil =>
    right
    simpa [updateW] using h
  | cons q rest ih =>
    cases q with
    | mk qk qc =>
      by_cases hq : qk = k0
      · rw [show updateW ((qk, qc) :: rest) k0 c0 = (qk, c0) :: rest by
          simp [updateW, hq]] at h
        rcases List.mem_cons.mp h with h | h
        · right
          rw [h, hq]
        · exact Or.inl (List.mem_cons_of_mem _ h)
      · rw [show updateW ((qk, qc) :: rest) k0 c0 = (qk, qc) :: updateW rest k0 c0 by
          simp [updateW, hq]] at h
        rcases List.mem_cons.mp h with h | h
        · exact Or.inl (h ▸ List.mem_cons_self _ _)
        · rcases ih h with h' | h'
          · exact Or.inl (List.mem_cons_of_mem _ h')
          · exact Or.inr h'

theorem winnerInv_nil : winnerInv [] [] := by
  intro k
  refine ⟨fun _ c hc => absurd hc (List.not_mem_nil c), fun w hw => ?_⟩
  simp [lookupW] at hw

theorem winnerInv_step {seen : List Candidate} {m : List (String × Candidate)}
    (h : winnerInv seen m) (c : Candidate) :
    winnerInv (seen ++ [c]) (stepWinner m c) := by
  intro k
  cases hm : lookupW m (parcelKey c) with
  | none =>
    rw [show stepWinner m c = updateW m (parcelKey c) c by simp [stepWinner, hm]]
    constructor
    · intro hnone x hx
      by_cases hk : k = parcelKey c
      · rw [hk, lookupW_updateW_self] at hnone
        cases hnone
      · rw [lookupW_updateW_ne _ _ _ _ (fun he => hk he.symm)] at hnone
        rcases List.mem_append.mp hx with hx | hx
        · exact (h k).1 hnone x hx
        · rw [List.mem_singleton.mp hx]
          exact fun he => hk he.symm
    · intro w hw
      by_cases hk : k = parcelKey c
      · rw [hk, lookupW_updateW_self] at hw
        cases hw
        refine ⟨List.mem_append_right _ (List.mem_singleton_self c), hk.symm, ?_⟩
        intro x hx hxk
        rcases List.mem_append.mp hx with hx | hx
        · exact absurd hxk ((h k).1 (hk ▸ hm) x hx)
        · rw [List.mem_singleton.mp hx]
          exact betterCand_irrefl c
      · rw [lookupW_updateW_ne _ _ _ _ (fun he => hk he.symm)] at hw
        obtain ⟨hwm, hwk, hwmin⟩ := (h k).2 w hw
        refine ⟨List.mem_append_left _ hwm, hwk, ?_⟩
        intro x hx hxk
        rcases List.mem_append.mp hx with hx | hx
        · exact hwmin x hx hxk
        · rw [List.mem_singleton.mp hx] at hxk
          exact absurd hxk (fun he => hk he.symm)
  | some cur =>
    cases hb : betterCand c cur with
    | true =>
      rw [show stepWinner m c = updateW m (parcelKey c) c by simp [stepWinner, hm, hb]]
      constructor
      · intro hnone x hx
        by_cases hk : k = parcelKey c
        · rw [hk, lookupW_updateW_self] at hnone
          cases hnone
        · rw [lookupW_updateW_ne _ _ _ _ (fun he => hk he.symm)] at hnone
          rcases List.mem_append.mp hx with hx | hx
          · exact (h k).1 hnone x hx
          · rw [List.mem_singleton.mp hx]
            exact fun he => hk he.symm
      · intro w hw
        by_cases hk : k = parcelKey c
        · rw [hk, lookupW_updateW_self] at hw
          cases hw
          refine ⟨List.mem_append_right _ (List.mem_singleton_self c), hk.symm, ?_⟩
          intro x hx hxk
          rcases List.mem_append.mp hx with hx | hx
          · obtain ⟨_, _, hcurmin⟩ := (h (parcelKey c)).2 cur hm
            have hxcur : betterCand x cur = false := hcurmin x hx (hk ▸ hxk)
            cases hxc : betterCand x c with
            | false => rfl
            | true => rw [betterCand_trans hxc hb] at hxcur; cases hxcur
          · rw [List.mem_singleton.mp hx]
            exact betterCand_irrefl c
        · rw [lookupW_updateW_ne _ _ _ _ (fun he => hk he.symm)] at hw
          obtain ⟨hwm, hwk, hwmin⟩ := (h k).2 w hw
          refine ⟨List.mem_append_left _ hwm, hwk, ?_⟩
          intro x hx hxk
          rcases List.mem_append.mp hx with hx | hx
          · exact hwmin x hx hxk
          · rw [List.mem_singleton.mp hx] at hxk
            exact absurd hxk (fun he => hk he.symm)
    | false =>
      rw [show stepWinner m c = m by simp [stepWinner, hm, hb]]
      constructor
      · intro hnone x hx
        rcases List.mem_append.mp hx with hx | hx
        · exact (h k).1 hnone x hx
        · rw [List.mem_singleton.mp hx]
          intro he
          rw [← he] at hnone
          rw [hnone] at hm
          cases hm
      · intro w hw
        obtain ⟨hwm, hwk, hwmin⟩ := (h k).2 w hw
        refine ⟨List.mem_append_left _ hwm, hwk, ?_⟩
        intro x hx hxk
        rcases List.mem_append.mp hx with hx | hx
        · exact hwmin x hx hxk
        · rw [List.mem_singleton.mp hx]
          rw [List.mem_singleton.mp hx] at hxk
          have : k = parcelKey c := hxk.symm
          rw [this] at hw
          rw [hw] at hm
          cases hm
          exact hb

theorem winnerInv_foldl (cs : List Candidate) :
    ∀ (seen : List Candidate) (m : List (String × Candidate)), winnerInv seen m →
      winnerInv (seen ++ cs) (cs.foldl stepWinner m) := by
  induction cs with
  | nil => intro seen m h; simpa using h
  | cons c rest ih =>
    intro seen m h
    have h1 := winnerInv_step h c
    have h2 := ih (seen ++ [c]) (stepWinner m c) h1
    simpa [List.append_assoc] using h2

theorem winnerInv_winnersMap (cs : List Candidate) : winnerInv cs (winnersMap cs) := by
  have h := winnerInv_foldl cs [] [] winnerInv_nil
  simpa [winnersMap] using h

/-- The winner map seen as a key-value function is invariant under
permutations of the candidate sequence, provided no two distinct candidates
carry the same (height, id) pair — in a real run the id is a distinct
inscription id per candidate. -/
theorem winnersMap_perm {cs cs' : List Candidate} (hp : cs.Perm cs')
    (hk : ∀ a ∈ cs, ∀ b ∈ cs, a.height = b.height → a.id = b.id → a = b) :
    ∀ k, lookupW (winnersMap cs) k = lookupW (winnersMap cs') k := by
  intro k
  have I := winnerInv_winnersMap cs k
  have I' := winnerInv_winnersMap cs' k
  cases h : lookupW (winnersMap cs) k with
  | none =>
    cases h' : lookupW (winnersMap cs') k with
    | none => rfl
    | some w' =>
      obtain ⟨hw'mem, hw'key, _⟩ := I'.2 w' h'
      exact absurd hw'key (I.1 h w' (hp.mem_iff.mpr hw'mem))
  | some w =>
    obtain ⟨hwmem, hwkey, hwmin⟩ := I.2 w h
    cases h' : lookupW (winnersMap cs') k with
    | none =>
      exact absurd hwkey (I'.1 h' w (hp.mem_iff.mp hwmem))
    | some w' =>
      obtain ⟨hw'mem, hw'key, hw'min⟩ := I'.2 w' h'
      have hw'cs : w' ∈ cs := hp.mem_iff.mpr hw'mem
      have hwcs' : w ∈ cs' := hp.mem_iff.mp hwmem
      have h1 : betterCand w' w = false := hwmin w' hw'cs hw'key
      have h2 : betterCand w w' = false := hw'min w hwcs' hwkey
      obtain ⟨hh, hi⟩ := betterCand_false_antisymm h2 h1
      exact congrArg some (hk w hwmem w' hw'cs hh hi)

/-- When every surviving candidate's details fetch succeeds, the
child-processing phase is exactly the pure tie-break fold over the
candidate list. -/
theorem processChildren_eq_fold (env : Env) (parentId : Int) (txCount : Option Int)
    (children : List String)
    (hd : ∀ c ∈ children, ∀ pc, isValidParcel env c parentId txCount = some pc →
      (env.heightOf pc.id).isSome = true) :
    ∀ m, processChildren env parentId txCount children m =
      .ok ((candidatesOf env parentId txCount children).foldl stepWinner m) := by
  induction children with
  | nil => intro m; simp [processChildren, candidatesOf]
  | cons c rest ih =>
    intro m
    have hdrest : ∀ x ∈ rest, ∀ pc, isValidParcel env x parentId txCount = some pc →
        (env.heightOf pc.id).isSome = true :=
      fun x hx => hd x (List.mem_cons_of_mem _ hx)
    cases hv : isValidParcel env c parentId txCount with
    | none =>
      rw [show processChildren env parentId txCount (c :: rest) m =
        processChildren env parentId txCount rest m by simp [processChildren, hv]]
      rw [show candidatesOf env parentId txCount (c :: rest) =
        candidatesOf env parentId txCount rest by simp [candidatesOf, hv]]
      exact ih hdrest m
    | some pc =>
      have hs := hd c (List.mem_cons_self _ _) pc hv
      cases hh : env.heightOf pc.id with
      | none => rw [hh] at hs; cases hs
      | some h0 =>
        rw [show processChildren env parentId txCount (c :: rest) m =
          processChildren env parentId txCount rest (stepWinner m ⟨pc.id, pc.content, h0⟩) by
            simp [processChildren, hv, getInscriptionDetails, hh]]
        rw [show candidatesOf env parentId txCount (c :: rest) =
          ⟨pc.id, pc.content, h0⟩ :: candidatesOf env parentId txCount rest by
            simp [candidatesOf, hv, hh]]
        rw [List.foldl_cons]
        exact ih hdrest (stepWinner m ⟨pc.id, pc.content, h0⟩)

/-! ## Claim C1 -/

/-- **C1.** Within a single `validateBitmap` run, the recorded winner for
each parcel number among the surviving candidates is the minimal one under
the order "block height first, then inscription id as an ordinary string":
a new candidate replaces the current winner exactly when its height is
lower, or its height is equal and its id is strictly smaller; consequently
(given that no two distinct candidates carry the same (height, id) pair,
as holds for distinct inscription ids) the final winner map is the same
for every arrival order of the children; in particular `{id:"b",
height:10}` vs `{id:"a", height:10}` yields winner `"a"` in both orders,
and a height-10 candidate beats a height-20 one in both orders. -/
theorem claim1_tiebreak :
    (∀ (env : Env) (parentId : Int) (txCount : Option Int) (children : List String),
      (∀ c ∈ children, ∀ pc, isValidParcel env c parentId txCount = some pc →
        (env.heightOf pc.id).isSome = true) →
      processChildren env parentId txCount children [] =
        .ok (winnersMap (candidatesOf env parentId txCount children))) ∧
    (∀ m c, lookupW m (parcelKey c) = none →
      stepWinner m c = updateW m (parcelKey c) c) ∧
    (∀ m c cur, lookupW m (parcelKey c) = some cur →
      stepWinner m c = if betterCand c cur then updateW m (parcelKey c) c else m) ∧
    (∀ cs k w, lookupW (winnersMap cs) k = some w →
      w ∈ cs ∧ parcelKey w = k ∧ ∀ c ∈ cs, parcelKey c = k → betterCand c w = false) ∧
    (∀ cs cs', cs.Perm cs' →
      (∀ a ∈ cs, ∀ b ∈ cs, a.height = b.height → a.id = b.id → a = b) →
      ∀ k, lookupW (winnersMap cs) k = lookupW (winnersMap cs') k) ∧
    (lookupW (winnersMap [⟨"b", "0.9.bitmap", 10⟩, ⟨"a", "0.9.bitmap", 10⟩]) "0" =
        some ⟨"a", "0.9.bitmap", 10⟩ ∧
      lookupW (winnersMap [⟨"a", "0.9.bitmap", 10⟩, ⟨"b", "0.9.bitmap", 10⟩]) "0" =
        some ⟨"a", "0.9.bitmap", 10⟩) ∧
    (lookupW (winnersMap [⟨"a", "0.9.bitmap", 20⟩, ⟨"b", "0.9.bitmap", 10⟩]) "0" =
        some ⟨"b", "0.9.bitmap", 10⟩ ∧
      lookupW (winnersMap [⟨"b", "0.9.bitmap", 10⟩, ⟨"a", "0.9.bitmap", 20⟩]) "0" =
        some ⟨"b", "0.9.bitmap", 10⟩) := by
  refine ⟨?_, ?_, ?_, ?_, ?_, ?_, ?_⟩
  · intro env parentId txCount children hd
    exact processChildren_eq_fold env parentId txCount children hd []
  · intro m c h
    simp [stepWinner, h]
  · intro m c cur h
    simp [stepWinner, h]
  · intro cs k w h
    exact (winnerInv_winnersMap cs k).2 w h
  · intro cs cs' hp hk
    exact winnersMap_perm hp hk
  · exact ⟨by decide, by decide⟩
  · exact ⟨by decide, by decide⟩

theorem claim1_tiebreak_witness :
    processChildren envC1w 9 (some 5) ["cb", "ca"] [] =
      .ok (winnersMap (candidatesOf envC1w 9 (some 5) ["cb", "ca"])) ∧
    lookupW (winnersMap [⟨"cb", "0.9.bitmap", 10⟩, ⟨"ca", "0.9.bitmap", 10⟩]) "0" =
      lookupW (winnersMap [⟨"ca", "0.9.bitmap", 10⟩, ⟨"cb", "0.9.bitmap", 10⟩]) "0" := by
  constructor
  · refine claim1_tiebreak.1 envC1w 9 (some 5) ["cb", "ca"] ?_
    intro c hc pc hpc
    rcases List.mem_cons.mp hc with h | h
    · subst h
      rw [show isValidParcel envC1w "cb" 9 (some 5) = some ⟨"cb", "0.9.bitmap"⟩ by decide] at hpc
      cases hpc
      decide
    · rcases List.mem_cons.mp h with h | h
      · subst h
        rw [show isValidParcel envC1w "ca" 9 (some 5) = some ⟨"ca", "0.9.bitmap"⟩ by decide] at hpc
        cases hpc
        decide
      · exact absurd h (List.not_mem_nil c)
  · exact claim1_tiebreak.2.2.2.2.1 _ _ (List.Perm.swap _ _ _) (by decide) "0"

theorem foldl_set_getD_not_mem (ps : List (Nat × Int)) :
    ∀ (init : List Int) (j : Nat), (∀ p ∈ ps, p.1 ≠ j) →
    (ps.foldl (fun acc p => acc.set p.1 p.2) init).getD j 0 = init.getD j 0 := by
  induction ps with
  | nil => intro init j _; rfl
  | cons p rest ih =>
    intro init j h
    rw [List.foldl_cons]
    rw [ih _ j (fun q hq => h q (List.mem_cons_of_mem _ hq))]
    have hne : p.1 ≠ j := h p (List.mem_cons_self _ _)
    simp [List.getD_eq_getElem?_getD, List.getElem?_set_ne hne]

theorem drop_length_append (l r : List Int) (n : Nat) (h : l.length = n) :
    (l ++ r).drop n = r := by
  subst h
  exact List.drop_left l r

theorem envPage2_flat : envPage2.pageFlat 2 = page2Payload := by
  unfold envPage2
  rfl

theorem page2_deltas : page2Payload.take 99999 = List.replicate 99999 1 := by
  rw [page2Payload, List.take_append_of_le_length (by rw [List.length_replicate]; omega)]
  rw [List.take_replicate, Nat.min_eq_left (by omega)]

theorem page2_perm :
    ((page2Payload.drop 100000).take 99999).map Int.toNat = List.range 99999 := by
  rw [page2Payload, drop_length_append _ _ _ (List.length_replicate _ _)]
  rw [← List.map_take, List.take_range, Nat.min_eq_left (by omega)]
  rw [List.map_map]
  have hco : (Int.toNat ∘ Int.ofNat) = id := funext fun n => rfl
  rw [hco, List.map_id]

theorem fillPage_two (env : Env) :
    fillPage env 2 =
      scatterSats ((((env.pageFlat 2).drop 100000).take 99999).map Int.toNat)
        (rebuildSats ((env.pageFlat 2).take 99999)) := by
  simp [fillPage]

theorem getBitmapSat_inRange (env : Env) (n : Int) (h1 : ¬ n < 0) (h2 : ¬ n > 839999) :
    getBitmapSat env n =
      .ok ((fillPage env (n / 100000).toNat).getD (n % 100000).toNat 0) := by
  unfold getBitmapSat
  rw [if_neg h1, if_neg h2]

theorem getBitmapSat_gap : getBitmapSat envPage2 299999 = .ok 0 := by
  rw [getBitmapSat_inRange envPage2 299999 (by omega) (by omega)]
  rw [show ((299999 : Int) / 100000).toNat = 2 by decide]
  rw [show ((299999 : Int) % 100000).toNat = 99999 by decide]
  rw [fillPage_two, envPage2_flat, page2_deltas, page2_perm]
  unfold scatterSats
  rw [foldl_set_getD_not_mem]
  · rw [List.getD_eq_getElem?_getD, List.getElem?_replicate]
    norm_num
  · intro p hp
    have h1 : p.1 ∈ List.range 99999 := (List.of_mem_zip hp).1
    have h2 : p.1 < 99999 := List.mem_range.mp h1
    omega

theorem rebuildSatsAux_all_pos (n : Nat) : ∀ acc : Int, 0 ≤ acc →
    (rebuildSatsAux acc (List.replicate n 1)).all (fun s => decide (0 < s)) = true := by
  induction n with
  | zero => intro acc _; rfl
  | succ m ih =>
    intro acc hacc
    rw [show List.replicate (m + 1) (1 : Int) = 1 :: List.replicate m 1 from rfl]
    rw [show rebuildSatsAux acc (1 :: List.replicate m 1) =
        (acc + 1) :: rebuildSatsAux (acc + 1) (List.replicate m 1) from rfl]
    rw [List.all_cons, ih (acc + 1) (by omega)]
    simp only [Bool.and_true, decide_eq_true_eq]
    omega

/-! ## Claim C2 -/

/-- **C2.** The range checks of `getBitmapSat` behave as claimed: `-1` and
`840000` fail with the range errors.  But the positivity part of the claim
fails on the code: with a well-formed page-2 payload — 200,000 entries,
whose first 100,000 deltas reconstruct only positive sats and whose second
100,000 entries are the identity permutation covering every slot —
`getBitmapSat 299999` returns the dense-array sentinel `0`, because
`slice(0, 99999)` and `slice(100000, 199999)` (end index excluded) drop the
100,000th delta and the 100,000th permutation entry, leaving slot 99999 of
page 2 unwritten. -/
theorem claim2_sentinel_gap :
    getBitmapSat envPage2 (-1) = .error "getBitmapSat: number is below 0!" ∧
    getBitmapSat envPage2 840000 = .error "getBitmapSat: number is above 839,999!" ∧
    page2Payload.length = 200000 ∧
    (page2Payload.drop 100000).map Int.toNat = List.range 100000 ∧
    (rebuildSats (page2Payload.take 100000)).all (fun s => decide (0 < s)) = true ∧
    getBitmapSat envPage2 299999 = .ok 0 := by
  refine ⟨rfl, rfl, ?_, ?_, ?_, getBitmapSat_gap⟩
  · rw [page2Payload, List.length_append, List.length_replicate, List.length_map,
      List.length_range]
  · rw [page2Payload, drop_length_append _ _ _ (List.length_replicate _ _)]
    rw [List.map_map]
    have hco : (Int.toNat ∘ Int.ofNat) = id := funext fun n => rfl
    rw [hco, List.map_id]
  · rw [page2Payload, List.take_append_of_le_length (by rw [List.length_replicate])]
    rw [List.take_replicate, Nat.min_eq_left (by omega)]
    rw [show List.replicate 100000 (1 : Int) = 1 :: List.replicate 99999 1 from rfl]
    rw [show rebuildSats (1 :: List.replicate 99999 (1 : Int)) =
        1 :: rebuildSatsAux 1 (List.replicate 99999 1) from rfl]
    rw [List.all_cons, rebuildSatsAux_all_pos 99999 1 (by omega)]
    rfl

/-! ## Claim C9 -/

theorem lookup_eq_none_of_not_mem {l : List (Int × Nat)} {k : Int}
    (h : k ∉ l.map Prod.fst) : l.lookup k = none := by
  induction l with
  | nil => rfl
  | cons p rest ih =>
    rw [List.map_cons, List.mem_cons] at h
    push_neg at h
    obtain ⟨h1, h2⟩ := h
    cases p with
    | mk a b =>
      rw [show ((a, b) :: rest).lookup k =
          (match k == a with
           | true => some b
           | false => rest.lookup k) from rfl]
      rw [show (k == a) = false from beq_eq_false_iff_ne.mpr h1]
      exact ih h2

/-- **C9.** `getBitmapSatIndex` is total — a plain function returning `0`
for every number not in its exception table — and its table contains keys
above the valid bitmap domain: 840151, 841151, 842151 and 845151 all map
to 1, numbers for which `getBitmapSat` throws its upper range error in any
environment. -/
theorem claim9_exception_table :
    (∀ n : Int, n ∉ satIndices.map Prod.fst → getBitmapSatIndex n = 0) ∧
    getBitmapSatIndex 840151 = 1 ∧ getBitmapSatIndex 841151 = 1 ∧
    getBitmapSatIndex 842151 = 1 ∧ getBitmapSatIndex 845151 = 1 ∧
    (∀ env : Env,
      getBitmapSat env 840151 = .error "getBitmapSat: number is above 839,999!" ∧
      getBitmapSat env 841151 = .error "getBitmapSat: number is above 839,999!" ∧
      getBitmapSat env 842151 = .error "getBitmapSat: number is above 839,999!" ∧
      getBitmapSat env 845151 = .error "getBitmapSat: number is above 839,999!") := by
  refine ⟨?_, by decide, by decide, by decide, by decide, ?_⟩
  · intro n h
    unfold getBitmapSatIndex
    rw [lookup_eq_none_of_not_mem h]
    rfl
  · intro env
    exact ⟨rfl, rfl, rfl, rfl⟩

theorem claim9_exception_table_witness :
    getBitmapSatIndex 7 = 0 ∧ getBitmapSatIndex 840151 = 1 ∧
    getBitmapSat env0 840151 = .error "getBitmapSat: number is above 839,999!" := by
  refine ⟨claim9_exception_table.1 7 (by decide), claim9_exception_table.2.1, ?_⟩
  exact (claim9_exception_table.2.2.2.2.2 env0).1

/-! ## Claim C8 -/

/-- **C8.** `validateBitmapContent` matches its input against the grammar
`^(\d+)(\.\d+)?\.bitmap$` (embedded as `matchBitmapContent`): one number
dispatches to `validateBitmap` on it, two numbers dispatch to
`validateBitmapParcel` with the first as the parcel and the second as the
parent block, and any non-matching content yields the fixed bad-format
invalid result, identical in every environment (no network call); the
claim's four concrete contents behave accordingly. -/
theorem claim8_content_dispatch :
    (∀ (env : Env) (fuel : Nat) (s : String) (iid : Option String) (n : Nat),
      matchBitmapContent s = some (n, none) →
      validateBitmapContent env fuel s iid = validateBitmap env fuel (n : Int) iid) ∧
    (∀ (env : Env) (fuel : Nat) (s : String) (iid : Option String) (p b : Nat),
      matchBitmapContent s = some (p, some b) →
      validateBitmapContent env fuel s iid =
        validateBitmapParcel env fuel (b : Int) (p : Int) iid) ∧
    (∀ (s : String), matchBitmapContent s = none →
      ∀ (env env' : Env) (fuel fuel' : Nat) (iid iid' : Option String),
        validateBitmapContent env fuel s iid =
          { status := .invalid,
            message := some "Invalid bitmap format. Expected format: \"number.bitmap\" or \"parcel.block.bitmap\"" } ∧
        validateBitmapContent env fuel s iid = validateBitmapContent env' fuel' s iid') ∧
    matchBitmapContent "177700.bitmap" = some (177700, none) ∧
    matchBitmapContent "0.177700.bitmap" = some (0, some 177700) ∧
    matchBitmapContent "177700" = none ∧
    matchBitmapContent "abc.bitmap" = none := by
  refine ⟨?_, ?_, ?_, by decide, by decide, by decide, by decide⟩
  · intro env fuel s iid n h
    unfold validateBitmapContent
    rw [h]
  · intro env fuel s iid p b h
    unfold validateBitmapContent
    rw [h]
  · intro s h env env' fuel fuel' iid iid'
    constructor
    · unfold validateBitmapContent
      rw [h]
    · unfold validateBitmapContent
      rw [h]

theorem claim8_content_dispatch_witness :
    validateBitmapContent env0 1 "177700.bitmap" none = validateBitmap env0 1 177700 none ∧
    validateBitmapContent env0 1 "0.177700.bitmap" none =
      validateBitmapParcel env0 1 177700 0 none ∧
    validateBitmapContent env0 1 "abc.bitmap" none =
      { status := .invalid,
        message := some "Invalid bitmap format. Expected format: \"number.bitmap\" or \"parcel.block.bitmap\"" } := by
  refine ⟨?_, ?_, ?_⟩
  · exact claim8_content_dispatch.1 env0 1 "177700.bitmap" none 177700 (by decide)
  · exact claim8_content_dispatch.2.1 env0 1 "0.177700.bitmap" none 0 177700 (by decide)
  · exact (claim8_content_dispatch.2.2.1 "abc.bitmap" (by decide) env0 env0 1 1 none none).1

/-! ## Claim C3 -/

theorem getBitmap_neg {env : Env} {n : Int} (h : n < 0) :
    getBitmap env n = .error ("Invalid bitmap number: " ++ toString n) := by
  unfold getBitmap
  rw [if_pos h]

theorem getBitmap_big {env : Env} {n : Int} (h : 839999 < n) :
    getBitmap env n = .error ("Bitmap #" ++ toString n ++ " is above validation limit") := by
  unfold getBitmap
  rw [if_neg (by omega), if_pos (by omega)]

theorem validateBitmap_neg (env : Env) (fuel : Nat) (n : Int) (iid : Option String)
    (h : n < 0) :
    validateBitmap env fuel n iid =
      { status := .invalid,
        message := some ("Invalid bitmap number: " ++ toString n),
        details := some { bitmapNumber := some n, inscriptionId := iid } } := by
  unfold validateBitmap validateBitmapBody
  rw [getBitmap_neg h]

theorem validateBitmap_big (env : Env) (fuel : Nat) (n : Int) (iid : Option String)
    (h : 839999 < n) :
    validateBitmap env fuel n iid =
      { status := .invalid,
        message := some ("Bitmap #" ++ toString n ++ " is above validation limit"),
        details := some { bitmapNumber := some n, inscriptionId := iid } } := by
  unfold validateBitmap validateBitmapBody
  rw [getBitmap_big h]

theorem validateBitmapParcel_out_of_range (env : Env) (fuel : Nat) (n p : Int)
    (iid : Option String) (h : n < 0 ∨ 839999 < n) :
    (validateBitmapParcel env fuel n p iid).status = .invalid := by
  unfold validateBitmapParcel
  rcases h with h | h
  · rw [validateBitmap_neg env fuel n none h]
    rfl
  · rw [validateBitmap_big env fuel n none h]
    rfl

/-- **C3 counterexample.** The claim says an out-of-domain number's range
error is surfaced to the caller of `validateBitmap` as a thrown exception
and never recovered into a result.  On the code, the body does throw, but
the entry point's catch-all recovers it: `validateBitmap (-1)` (and
`840000`) return ordinary `invalid` `ValidationResult`s. -/
theorem claim3_counterexample :
    validateBitmapBody env0 1 (-1) none = .error "Invalid bitmap number: -1" ∧
    validateBitmap env0 1 (-1) none =
      { status := .invalid, message := some "Invalid bitmap number: -1",
        details := some { bitmapNumber := some (-1) } } ∧
    validateBitmapBody env0 1 840000 none =
      .error "Bitmap #840000 is above validation limit" ∧
    validateBitmap env0 1 840000 none =
      { status := .invalid, message := some "Bitmap #840000 is above validation limit",
        details := some { bitmapNumber := some 840000 } } := by
  exact ⟨rfl, by decide, rfl, by decide⟩

/-- **C3 (amended).** For every numeric input outside [0, 839999] the range
error is caught by the entry points' catch-all and converted into an
`invalid` `ValidationResult` carrying the range-error message — the public
entry points (`validateBitmap`, `validateBitmapParcel`,
`validateBitmapContent`) never throw, for out-of-domain input or otherwise
(they are total), and always return a `ValidationResult` object. -/
theorem claim3_amended :
    (∀ (env : Env) (fuel : Nat) (n : Int) (iid : Option String), n < 0 →
      validateBitmap env fuel n iid =
        { status := .invalid,
          message := some ("Invalid bitmap number: " ++ toString n),
          details := some { bitmapNumber := some n, inscriptionId := iid } }) ∧
    (∀ (env : Env) (fuel : Nat) (n : Int) (iid : Option String), 839999 < n →
      validateBitmap env fuel n iid =
        { status := .invalid,
          message := some ("Bitmap #" ++ toString n ++ " is above validation limit"),
          details := some { bitmapNumber := some n, inscriptionId := iid } }) ∧
    (∀ (env : Env) (fuel : Nat) (n p : Int) (iid : Option String), n < 0 ∨ 839999 < n →
      (validateBitmapParcel env fuel n p iid).status = .invalid) ∧
    (∀ (env : Env) (fuel : Nat) (s : String) (iid : Option String) (n : Nat),
      matchBitmapContent s = some (n, none) → 839999 < (n : Int) →
      (validateBitmapContent env fuel s iid).status = .invalid) ∧
    (∀ (env : Env) (fuel : Nat) (s : String) (iid : Option String) (p b : Nat),
      matchBitmapContent s = some (p, some b) → 839999 < (b : Int) →
      (validateBitmapContent env fuel s iid).status = .invalid) := by
  refine ⟨validateBitmap_neg, validateBitmap_big, validateBitmapParcel_out_of_range, ?_, ?_⟩
  · intro env fuel s iid n hm h
    unfold validateBitmapContent
    rw [hm]
    show (validateBitmap env fuel (n : Int) iid).status = .invalid
    rw [validateBitmap_big env fuel (n : Int) iid h]
  · intro env fuel s iid p b hm h
    unfold validateBitmapContent
    rw [hm]
    show (validateBitmapParcel env fuel (b : Int) (p : Int) iid).status = .invalid
    exact validateBitmapParcel_out_of_range env fuel (b : Int) (p : Int) iid (Or.inr h)

theorem claim3_amended_witness :
    validateBitmap env0 1 (-1) none =
      { status := .invalid, message := some "Invalid bitmap number: -1",
        details := some { bitmapNumber := some (-1) } } ∧
    (validateBitmapParcel env0 1 840000 0 none).status = .invalid ∧
    (validateBitmapContent env0 1 "840000.bitmap" none).status = .invalid := by
  refine ⟨?_, ?_, ?_⟩
  · have h := claim3_amended.1 env0 1 (-1) none (by omega)
    rw [h]
    decide
  · exact claim3_amended.2.2.1 env0 1 840000 0 none (by omega)
  · exact claim3_amended.2.2.2.1 env0 1 "840000.bitmap" none 840000 (by decide) (by omega)

/-! ## Claim C4 -/

theorem checkParcel_iff (content childId : String) (parentId : Int)
    (txc : Option Int) (pc : ParcelCheck) :
    checkParcelContent content childId parentId txc = some pc ↔
      (pc = ⟨childId, content⟩ ∧
       ∃ a b, splitDot content = [a, b, "bitmap"] ∧ b = toString parentId ∧
         ∃ pn : Int, parseIntJS a = some pn ∧ 0 ≤ pn ∧ ∀ t, txc = some t → pn < t) := by
  unfold checkParcelContent
  rcases hs : splitDot content with _ | ⟨a, _ | ⟨b, _ | ⟨c, _ | ⟨d, rest⟩⟩⟩⟩
  · simp [hs]
  · simp [hs]
  · simp [hs]
  · by_cases hc : c = "bitmap"
    · subst hc
      by_cases hb : b = toString parentId
      · subst hb
        cases hp : parseIntJS a with
        | none => simp [hp]
        | some pn =>
          by_cases hneg : pn < 0
          · simp [hp, hneg]
          · cases txc with
            | none =>
              simp [hp, hneg]
              constructor
              · intro he
                exact ⟨he.symm, a, toString parentId, ⟨rfl, rfl⟩, rfl, pn, hp, by omega⟩
              · intro h
                exact h.1.symm
            | some t =>
              by_cases hge : pn ≥ t
              · simp [hp, hneg, hge]
              · simp [hp, hneg, hge]
                constructor
                · intro he
                  exact ⟨he.symm, a, toString parentId, ⟨rfl, rfl⟩, rfl, pn, hp, by omega,
                    by omega⟩
                · intro h
                  exact h.1.symm
      · simp [hs, hb]
    · simp [hs, hc]
  · simp [hs]

/-- **C4 counterexample.** The claim's "first part is a non-negative
integer" fails on the code: `parseInt` accepts any numeric prefix, so the
content `"5x.177700.bitmap"` — whose first dot-fragment `"5x"` is not an
integer — survives `isValidParcel` against parent 177700 with transaction
count 6, while the claim's reading of the check (`specParcelSurvives`,
which demands a digit-string first fragment) rejects it. -/
theorem claim4_counterexample :
    isValidParcel envC4 "c1" 177700 (some 6) = some ⟨"c1", "5x.177700.bitmap"⟩ ∧
    specParcelSurvives "5x.177700.bitmap" 177700 (some 6) = false := by
  exact ⟨by decide, by decide⟩

/-- **C4 (amended).** A child survives as a parcel candidate iff its
content fetch succeeds and the trimmed content splits into exactly three
dot-separated fragments `[a, b, "bitmap"]` with `b` textually equal to the
parent's decimal string and `a` parsing, under JavaScript `parseInt`
semantics (longest digit prefix after optional sign and whitespace), to a
non-negative number that is strictly below the parent's `transactionCount`
whenever that count is known; a child failing any of these checks — or
whose content fetch fails — is dropped (`none`) rather than reported as an
error.  In particular `"6.177700.bitmap"` against transaction count 6 is
rejected and `"5.177700.bitmap"` is accepted. -/
theorem claim4_amended :
    (∀ (env : Env) (childId : String) (parentId : Int) (txc : Option Int)
        (raw : String) (pc : ParcelCheck), env.contentOf childId = some raw →
      (isValidParcel env childId parentId txc = some pc ↔
        (pc = ⟨childId, trimStr raw⟩ ∧
         ∃ a b, splitDot (trimStr raw) = [a, b, "bitmap"] ∧ b = toString parentId ∧
           ∃ pn : Int, parseIntJS a = some pn ∧ 0 ≤ pn ∧ ∀ t, txc = some t → pn < t))) ∧
    (∀ (env : Env) (childId : String) (parentId : Int) (txc : Option Int),
      env.contentOf childId = none → isValidParcel env childId parentId txc = none) ∧
    isValidParcel envC4w "c6" 177700 (some 6) = none ∧
    isValidParcel envC4w "c5" 177700 (some 6) = some ⟨"c5", "5.177700.bitmap"⟩ := by
  refine ⟨?_, ?_, by decide, by decide⟩
  · intro env childId parentId txc raw pc hraw
    rw [show isValidParcel env childId parentId txc =
        checkParcelContent (trimStr raw) childId parentId txc by
      unfold isValidParcel fetchInscriptionContent
      rw [hraw]]
    exact checkParcel_iff (trimStr raw) childId parentId txc pc
  · intro env childId parentId txc h
    unfold isValidParcel fetchInscriptionContent
    rw [h]

theorem claim4_amended_witness :
    isValidParcel envC4w "c5" 177700 (some 6) = some ⟨"c5", "5.177700.bitmap"⟩ ∧
    isValidParcel env0 "c5" 177700 (some 6) = none := by
  constructor
  · refine (claim4_amended.1 envC4w "c5" 177700 (some 6) "5.177700.bitmap"
      ⟨"c5", "5.177700.bitmap"⟩ (by decide)).mpr ?_
    refine ⟨by decide, "5", "177700", by decide, by decide, 5, by decide, by omega, ?_⟩
    intro t ht
    cases ht
    omega
  · exact claim4_amended.2.1 env0 "c5" 177700 (some 6) rfl

/-! ## Claim C7 -/

theorem getChildrenGo_steps (env : Env) (inscriptionId : String)
    (batches : List (List String)) :
    ∀ (fuel page : Nat) (acc : List String),
      (∀ i (hi : i < batches.length),
        env.childrenOf inscriptionId (page + i) = .ok (batches.get ⟨i, hi⟩) true ∧
        batches.get ⟨i, hi⟩ ≠ []) →
      batches.length ≤ fuel →
      getChildrenGo env inscriptionId fuel page acc =
        getChildrenGo env inscriptionId (fuel - batches.length)
          (page + batches.length) (acc ++ batches.flatten) := by
  induction batches with
  | nil =>
    intro fuel page acc _ _
    simp
  | cons b bs ih =>
    intro fuel page acc h hf
    cases fuel with
    | zero => exact absurd hf (by simp)
    | succ f =>
      have hb1 : env.childrenOf inscriptionId page = .ok b true := by
        have hx := (h 0 (by simp)).1
        simpa using hx
      have hb2 : b ≠ [] := by
        have hx := (h 0 (by simp)).2
        simpa using hx
      have hstep : getChildrenGo env inscriptionId (f + 1) page acc =
          getChildrenGo env inscriptionId f (page + 1) (acc ++ b) := by
        show (match env.childrenOf inscriptionId page with
          | .httpErr _ => acc
          | .ok ids more =>
            if ids = [] then acc
            else if more then getChildrenGo env inscriptionId f (page + 1) (acc ++ ids)
            else acc ++ ids) = _
        rw [hb1]
        simp [hb2]
      rw [hstep]
      have hrec := ih f (page + 1) (acc ++ b)
        (fun i hi => by
          have hx := h (i + 1) (by simpa using Nat.succ_lt_succ hi)
          rw [show page + (i + 1) = page + 1 + i by omega] at hx
          exact hx)
        (by simpa using Nat.le_of_succ_le_succ hf)
      rw [hrec]
      rw [show page + 1 + bs.length = page + (b :: bs).length by simp; omega]
      rw [show (f + 1) - (b :: bs).length = f - bs.length by simp]
      rw [List.append_assoc]
      rw [show b ++ bs.flatten = (b :: bs).flatten by simp]

theorem getChildren_err_first (env : Env) (inscriptionId : String) (s fuel : Nat)
    (h : env.childrenOf inscriptionId 0 = .httpErr s) :
    getChildrenInscriptions env (fuel + 1) inscriptionId = [] := by
  show (match env.childrenOf inscriptionId 0 with
    | .httpErr _ => ([] : List String)
    | .ok ids more =>
      if ids = [] then []
      else if more then getChildrenGo env inscriptionId fuel 1 ([] ++ ids)
      else [] ++ ids) = []
  rw [h]

theorem getChildren_concat (env : Env) (inscriptionId : String)
    (batches : List (List String)) (lastIds : List String) (fuel : Nat)
    (h : ∀ i (hi : i < batches.length),
      env.childrenOf inscriptionId i = .ok (batches.get ⟨i, hi⟩) true ∧
      batches.get ⟨i, hi⟩ ≠ [])
    (hlast : env.childrenOf inscriptionId batches.length = .ok lastIds false)
    (hne : lastIds ≠ []) (hfuel : batches.length < fuel) :
    getChildrenInscriptions env fuel inscriptionId = batches.flatten ++ lastIds := by
  unfold getChildrenInscriptions
  rw [getChildrenGo_steps env inscriptionId batches fuel 0 []
    (fun i hi => by simpa using h i hi) (by omega)]
  rw [show (0 : Nat) + batches.length = batches.length by omega, List.nil_append]
  cases hf : fuel - batches.length with
  | zero => omega
  | succ f =>
    show (match env.childrenOf inscriptionId batches.length with
      | .httpErr _ => batches.flatten
      | .ok ids more =>
        if ids = [] then batches.flatten
        else if more then
          getChildrenGo env inscriptionId f (batches.length + 1) (batches.flatten ++ ids)
        else batches.flatten ++ ids) = batches.flatten ++ lastIds
    rw [hlast]
    simp [hne]

theorem getChildren_err_mid (env : Env) (inscriptionId : String)
    (batches : List (List String)) (s : Nat) (fuel : Nat)
    (h : ∀ i (hi : i < batches.length),
      env.childrenOf inscriptionId i = .ok (batches.get ⟨i, hi⟩) true ∧
      batches.get ⟨i, hi⟩ ≠ [])
    (hlast : env.childrenOf inscriptionId batches.length = .httpErr s)
    (hfuel : batches.length < fuel) :
    getChildrenInscriptions env fuel inscriptionId = batches.flatten := by
  unfold getChildrenInscriptions
  rw [getChildrenGo_steps env inscriptionId batches fuel 0 []
    (fun i hi => by simpa using h i hi) (by omega)]
  rw [show (0 : Nat) + batches.length = batches.length by omega, List.nil_append]
  cases hf : fuel - batches.length with
  | zero => omega
  | succ f =>
    show (match env.childrenOf inscriptionId batches.length with
      | .httpErr _ => batches.flatten
      | .ok ids more =>
        if ids = [] then batches.flatten
        else if more then
          getChildrenGo env inscriptionId f (batches.length + 1) (batches.flatten ++ ids)
        else batches.flatten ++ ids) = batches.flatten
    rw [hlast]

theorem getChildren_empty_batch (env : Env) (inscriptionId : String)
    (batches : List (List String)) (more0 : Bool) (fuel : Nat)
    (h : ∀ i (hi : i < batches.length),
      env.childrenOf inscriptionId i = .ok (batches.get ⟨i, hi⟩) true ∧
      batches.get ⟨i, hi⟩ ≠ [])
    (hlast : env.childrenOf inscriptionId batches.length = .ok [] more0)
    (hfuel : batches.length < fuel) :
    getChildrenInscriptions env fuel inscriptionId = batches.flatten := by
  unfold getChildrenInscriptions
  rw [getChildrenGo_steps env inscriptionId batches fuel 0 []
    (fun i hi => by simpa using h i hi) (by omega)]
  rw [show (0 : Nat) + batches.length = batches.length by omega, List.nil_append]
  cases hf : fuel - batches.length with
  | zero => omega
  | succ f =>
    show (match env.childrenOf inscriptionId batches.length with
      | .httpErr _ => batches.flatten
      | .ok ids more =>
        if ids = [] then batches.flatten
        else if more then
          getChildrenGo env inscriptionId f (batches.length + 1) (batches.flatten ++ ids)
        else batches.flatten ++ ids) = batches.flatten
    rw [hlast]
    simp

/-- **C7 counterexample.** A non-404 HTTP error (here a 500 on the first
page) does NOT make the children fetch fail: the catch inside the source's
pagination loop swallows the thrown error and breaks, so
`getChildrenInscriptions` returns the empty list normally, whereas the
spec-modelled `getChildrenSpec` that the claim describes fails with
`RemoteLookupError`. -/
theorem claim7_counterexample :
    getChildrenInscriptions env500 5 "root" = [] ∧
    getChildrenSpec env500 5 "root" = .error "RemoteLookupError" := by
  exact ⟨rfl, rfl⟩

/-- **C7 (amended).** `getChildrenInscriptions` concatenates the ids of
successive pages, continuing exactly while the upstream response is ok
with `more = true` and a non-empty ids batch; any HTTP error — 404 or not,
on the first page or later — merely ends pagination, returning the ids
collected so far (a 404, like any error, on the first page yields the
empty sequence); an empty batch likewise ends pagination.  The function
never fails: no error reaches its caller. -/
theorem claim7_amended :
    (∀ (env : Env) (inscriptionId : String) (s fuel : Nat),
      env.childrenOf inscriptionId 0 = .httpErr s →
      getChildrenInscriptions env (fuel + 1) inscriptionId = []) ∧
    (∀ (env : Env) (inscriptionId : String) (batches : List (List String))
        (lastIds : List String) (fuel : Nat),
      (∀ i (hi : i < batches.length),
        env.childrenOf inscriptionId i = .ok (batches.get ⟨i, hi⟩) true ∧
        batches.get ⟨i, hi⟩ ≠ []) →
      env.childrenOf inscriptionId batches.length = .ok lastIds false →
      lastIds ≠ [] → batches.length < fuel →
      getChildrenInscriptions env fuel inscriptionId = batches.flatten ++ lastIds) ∧
    (∀ (env : Env) (inscriptionId : String) (batches : List (List String))
        (s : Nat) (fuel : Nat),
      (∀ i (hi : i < batches.length),
        env.childrenOf inscriptionId i = .ok (batches.get ⟨i, hi⟩) true ∧
        batches.get ⟨i, hi⟩ ≠ []) →
      env.childrenOf inscriptionId batches.length = .httpErr s →
      batches.length < fuel →
      getChildrenInscriptions env fuel inscriptionId = batches.flatten) ∧
    (∀ (env : Env) (inscriptionId : String) (batches : List (List String))
        (more0 : Bool) (fuel : Nat),
      (∀ i (hi : i < batches.length),
        env.childrenOf inscriptionId i = .ok (batches.get ⟨i, hi⟩) true ∧
        batches.get ⟨i, hi⟩ ≠ []) →
      env.childrenOf inscriptionId batches.length = .ok [] more0 →
      batches.length < fuel →
      getChildrenInscriptions env fuel inscriptionId = batches.flatten) := by
  refine ⟨getChildren_err_first, ?_, ?_, ?_⟩
  · intro env inscriptionId batches lastIds fuel h hlast hne hfuel
    exact getChildren_concat env inscriptionId batches lastIds fuel h hlast hne hfuel
  · intro env inscriptionId batches s fuel h hlast hfuel
    exact getChildren_err_mid env inscriptionId batches s fuel h hlast hfuel
  · intro env inscriptionId batches more0 fuel h hlast hfuel
    exact getChildren_empty_batch env inscriptionId batches more0 fuel h hlast hfuel

theorem claim7_amended_witness :
    getChildrenInscriptions envC7w 2 "r" = ["a", "b"] ∧
    getChildrenInscriptions env500 1 "r" = [] := by
  constructor
  · have h := claim7_amended.2.1 envC7w "r" [["a"]] ["b"] 2
      (by
        intro i hi
        have hz : i = 0 := by
          simp at hi
          omega
        subst hz
        refine ⟨?_, ?_⟩
        · show envC7w.childrenOf "r" 0 = ChildResp.ok ["a"] true
          decide
        · show (["a"] : List String) ≠ []
          decide)
      (by decide) (by decide) (by decide)
    simpa using h
  · exact claim7_amended.1 env500 "r" 500 0 rfl

/-! ## Claim C6 -/

theorem mem_zip_of_getElem? {l1 : List Nat} {l2 : List Int} {i : Nat} {a : Nat} {b : Int}
    (h1 : l1[i]? = some a) (h2 : l2[i]? = some b) : (a, b) ∈ l1.zip l2 := by
  have h3 : (l1.zip l2)[i]? = some (a, b) := List.getElem?_zip_eq_some.mpr ⟨h1, h2⟩
  have h4 : i < (l1.zip l2).length := by
    by_contra hc
    rw [List.getElem?_eq_none (by omega)] at h3
    cases h3
  rw [List.getElem?_eq_getElem h4] at h3
  injection h3 with h5
  exact h5 ▸ List.getElem_mem h4

theorem rebuildSatsAux_getElem? (ds : List Int) : ∀ (acc : Int) (i : Nat),
    (rebuildSatsAux acc ds)[i]? =
      if i < ds.length then some (acc + (ds.take (i + 1)).sum) else none := by
  induction ds with
  | nil => intro acc i; simp [rebuildSatsAux]
  | cons d rest ih =>
    intro acc i
    cases i with
    | zero => simp [rebuildSatsAux]
    | succ j =>
      rw [show rebuildSatsAux acc (d :: rest) =
          (acc + d) :: rebuildSatsAux (acc + d) rest from rfl]
      rw [show ((acc + d) :: rebuildSatsAux (acc + d) rest)[j + 1]? =
          (rebuildSatsAux (acc + d) rest)[j]? by simp]
      rw [ih (acc + d) j]
      by_cases hj : j < rest.length
      · rw [if_pos hj, if_pos (by simp only [List.length_cons]; omega)]
        rw [show (d :: rest).take (j + 1 + 1) = d :: rest.take (j + 1) from rfl]
        rw [List.sum_cons]
        congr 1
        ring
      · rw [if_neg hj, if_neg (by simp only [List.length_cons]; omega)]

theorem rebuildSats_getElem? (ds : List Int) (i : Nat) :
    (rebuildSats ds)[i]? =
      if i < ds.length then some ((ds.take (i + 1)).sum) else none := by
  cases ds with
  | nil => simp [rebuildSats]
  | cons d rest =>
    cases i with
    | zero => simp [rebuildSats]
    | succ j =>
      rw [show rebuildSats (d :: rest) = d :: rebuildSatsAux d rest from rfl]
      rw [show (d :: rebuildSatsAux d rest)[j + 1]? = (rebuildSatsAux d rest)[j]? by simp]
      rw [rebuildSatsAux_getElem? rest d j]
      by_cases hj : j < rest.length
      · rw [if_pos hj, if_pos (by simp only [List.length_cons]; omega)]
        rw [show (d :: rest).take (j + 1 + 1) = d :: rest.take (j + 1) from rfl]
        rw [List.sum_cons]
      · rw [if_neg hj, if_neg (by simp only [List.length_cons]; omega)]

theorem rebuildSatsAux_length (ds : List Int) : ∀ acc,
    (rebuildSatsAux acc ds).length = ds.length := by
  induction ds with
  | nil => intro _; rfl
  | cons d rest ih => intro acc; simp [rebuildSatsAux, ih]

theorem rebuildSats_length (ds : List Int) : (rebuildSats ds).length = ds.length := by
  cases ds with
  | nil => rfl
  | cons d rest => simp [rebuildSats, rebuildSatsAux_length]

theorem foldl_set_getD_nodup (ps : List (Nat × Int)) :
    ∀ (init : List Int), (ps.map Prod.fst).Nodup →
      ∀ (pos : Nat) (sat : Int), (pos, sat) ∈ ps → pos < init.length →
      (ps.foldl (fun a p => a.set p.1 p.2) init).getD pos 0 = sat := by
  induction ps with
  | nil =>
    intro init _ pos sat hm
    cases hm
  | cons q rest ih =>
    intro init hnd pos sat hm hlen
    rw [List.foldl_cons]
    rw [List.map_cons, List.nodup_cons] at hnd
    rcases List.mem_cons.mp hm with hq | hq
    · have hq1 : q.1 = pos := by rw [← hq]
      have hq2 : q.2 = sat := by rw [← hq]
      rw [foldl_set_getD_not_mem rest (init.set q.1 q.2) pos (by
        intro p hp he
        apply hnd.1
        have hmm : p.1 ∈ rest.map Prod.fst := List.mem_map_of_mem Prod.fst hp
        rw [he, ← hq1] at hmm
        exact hmm)]
      rw [hq1, hq2]
      rw [List.getD_eq_getElem?_getD, List.getElem?_set_eq_of_lt sat hlen]
      rfl
    · exact ih (init.set q.1 q.2) hnd.2 pos sat hq (by rw [List.length_set]; exact hlen)

theorem replicate_getD_zero (n j : Nat) : (List.replicate n (0 : Int)).getD j 0 = 0 := by
  rw [List.getD_eq_getElem?_getD, List.getElem?_replicate]
  by_cases h : j < n
  · rw [if_pos h]
    rfl
  · rw [if_neg h]
    rfl

theorem fillPage_pair (env : Env) (page : Nat) (deltas : List Int) (perm : List Nat)
    (hpage : ¬(page = 2 ∨ page = 3)) (hpair : env.pagePair page = (deltas, perm)) :
    fillPage env page = scatterSats perm (rebuildSats deltas) := by
  simp only [fillPage, if_neg hpage, hpair]

/-- **C6.** Page decoding maps the parallel delta and permutation sequences
to a dense output array: the reconstructed absolute value at position `i`
is the cumulative sum of the deltas up to `i` (index 0 absolute), it is
stored at `output[permutation[i]]`, and every unassigned slot keeps the
sentinel 0; for deltas `[100, 5, -2]` and permutation `[2, 0, 1]` the
reconstructed absolutes are `[100, 105, 103]` with `output[2] = 100`,
`output[0] = 105`, `output[1] = 103`. -/
theorem claim6_page_decode :
    (∀ (deltas : List Int) (i : Nat), i < deltas.length →
      (rebuildSats deltas)[i]? = some ((deltas.take (i + 1)).sum)) ∧
    (∀ (env : Env) (page : Nat) (deltas : List Int) (perm : List Nat),
      ¬(page = 2 ∨ page = 3) → env.pagePair page = (deltas, perm) →
      perm.Nodup → perm.length = deltas.length → (∀ x ∈ perm, x < 100000) →
      (∀ (i pos : Nat) (sat : Int), perm[i]? = some pos →
        (rebuildSats deltas)[i]? = some sat →
        (fillPage env page).getD pos 0 = sat) ∧
      (∀ j : Nat, j ∉ perm → (fillPage env page).getD j 0 = 0)) ∧
    rebuildSats [100, 5, -2] = [100, 105, 103] ∧
    (∀ env : Env, env.pagePair 0 = ([100, 5, -2], [2, 0, 1]) →
      (fillPage env 0).getD 2 0 = 100 ∧ (fillPage env 0).getD 0 0 = 105 ∧
      (fillPage env 0).getD 1 0 = 103) := by
  refine ⟨?_, ?_, by decide, ?_⟩
  · intro deltas i h
    rw [rebuildSats_getElem?, if_pos h]
  · intro env page deltas perm hpage hpair hnd hlen hbound
    rw [fillPage_pair env page deltas perm hpage hpair]
    constructor
    · intro i pos sat hpi hsi
      unfold scatterSats
      have hmem : (pos, sat) ∈ perm.zip (rebuildSats deltas) := mem_zip_of_getElem? hpi hsi
      have hposmem : pos ∈ perm := (List.of_mem_zip hmem).1
      have hfst : (perm.zip (rebuildSats deltas)).map Prod.fst = perm :=
        List.map_fst_zip _ _ (by rw [rebuildSats_length]; omega)
      apply foldl_set_getD_nodup _ _ (by rw [hfst]; exact hnd) pos sat hmem
      rw [List.length_replicate]
      exact hbound pos hposmem
    · intro j hj
      unfold scatterSats
      rw [foldl_set_getD_not_mem]
      · exact replicate_getD_zero _ _
      · intro p hp he
        exact hj (he ▸ (List.of_mem_zip hp).1)
  · intro env h
    rw [fillPage_pair env 0 [100, 5, -2] [2, 0, 1] (by decide) h]
    exact ⟨by decide, by decide, by decide⟩

theorem claim6_page_decode_witness :
    (rebuildSats [100, 5, -2])[1]? = some ((([100, 5, -2] : List Int).take 2).sum) ∧
    (fillPage envC6 0).getD 0 0 = 105 ∧
    (fillPage envC6 0).getD 2 0 = 100 ∧
    (fillPage envC6 0).getD 1 0 = 103 := by
  have h2 := claim6_page_decode.2.1 envC6 0 [100, 5, -2] [2, 0, 1]
    (by decide) (by decide) (by decide) (by decide) (by decide)
  refine ⟨claim6_page_decode.1 [100, 5, -2] 1 (by decide), ?_, ?_, ?_⟩
  · exact h2.1 1 0 105 (by decide) (by decide)
  · exact h2.1 0 2 100 (by decide) (by decide)
  · exact h2.1 2 1 103 (by decide) (by decide)

/-! ## Claim C10 -/

theorem validateBitmapBody_status (env : Env) (fuel : Nat) (n : Int) (iid : Option String)
    (r : BitmapValidationResult) (h : validateBitmapBody env fuel n iid = .ok r) :
    r.status = .valid ∨ r.status = .invalid := by
  unfold validateBitmapBody at h
  split at h
  · cases h
  · split at h
    · cases h
      exact Or.inr rfl
    · split at h
      · cases h
      · split at h
        · cases h
        · split at h
          · cases h
            exact Or.inr rfl
          · split at h
            · cases h
            · cases h
              exact Or.inl rfl

theorem validateBitmap_status (env : Env) (fuel : Nat) (n : Int) (iid : Option String) :
    (validateBitmap env fuel n iid).status = .valid ∨
    (validateBitmap env fuel n iid).status = .invalid := by
  unfold validateBitmap
  cases hb : validateBitmapBody env fuel n iid with
  | ok r => exact validateBitmapBody_status env fuel n iid r hb
  | error e => exact Or.inr rfl

theorem validateBitmapParcel_status (env : Env) (fuel : Nat) (n p : Int)
    (iid : Option String) :
    (validateBitmapParcel env fuel n p iid).status = .valid ∨
    (validateBitmapParcel env fuel n p iid).status = .invalid := by
  unfold validateBitmapParcel
  by_cases hs : (validateBitmap env fuel n none).status ≠ .valid
  · rw [if_pos hs]
    rcases validateBitmap_status env fuel n none with h | h
    · exact absurd h hs
    · exact Or.inr h
  · rw [if_neg hs]
    split
    · split
      · exact Or.inr rfl
      · exact Or.inl rfl
    · exact Or.inr rfl
    · exact Or.inl rfl

/-- **C10.** Every `ValidationResult` returned by `validateBitmap`,
`validateBitmapParcel` and `validateBitmapContent` has status `valid` or
`invalid`: although `BitmapValidationStatus` also declares `pending` and
`unknown`, no input and no remote outcome makes these entry points produce
either of those statuses. -/
theorem claim10_status_binary :
    ∀ (env : Env) (fuel : Nat),
      (∀ (n : Int) (iid : Option String),
        (validateBitmap env fuel n iid).status = .valid ∨
        (validateBitmap env fuel n iid).status = .invalid) ∧
      (∀ (n p : Int) (iid : Option String),
        (validateBitmapParcel env fuel n p iid).status = .valid ∨
        (validateBitmapParcel env fuel n p iid).status = .invalid) ∧
      (∀ (s : String) (iid : Option String),
        (validateBitmapContent env fuel s iid).status = .valid ∨
        (validateBitmapContent env fuel s iid).status = .invalid) := by
  intro env fuel
  refine ⟨fun n iid => validateBitmap_status env fuel n iid,
    fun n p iid => validateBitmapParcel_status env fuel n p iid, ?_⟩
  intro s iid
  unfold validateBitmapContent
  split
  · exact Or.inr rfl
  · exact validateBitmap_status env fuel _ iid
  · exact validateBitmapParcel_status env fuel _ _ iid

/-! ## Claim C5 -/

theorem isValidParcel_id_content (env : Env) (c : String) (n : Int) (txc : Option Int)
    (pc : ParcelCheck) (h : isValidParcel env c n txc = some pc) :
    pc.id = c ∧ (env.contentOf c).isSome = true := by
  unfold isValidParcel fetchInscriptionContent at h
  cases hc : env.contentOf c with
  | none =>
    rw [hc] at h
    cases h
  | some raw =>
    rw [hc] at h
    constructor
    · have hiff := (checkParcel_iff (trimStr raw) c n txc pc).mp h
      rw [hiff.1]
    · rfl

theorem stepWinner_val_mem {m : List (String × Candidate)} {c : Candidate}
    {q : String × Candidate} (h : q ∈ stepWinner m c) : q ∈ m ∨ q.2 = c := by
  unfold stepWinner at h
  cases hm : lookupW m (parcelKey c) with
  | none =>
    rw [hm] at h
    rcases mem_updateW h with h' | h'
    · exact Or.inl h'
    · right
      rw [h']
  | some cur =>
    rw [hm] at h
    have hred : (match some cur with
        | none => updateW m (parcelKey c) c
        | some cur => if betterCand c cur = true then updateW m (parcelKey c) c else m) =
        if betterCand c cur = true then updateW m (parcelKey c) c else m := rfl
    rw [hred] at h
    by_cases hb : betterCand c cur
    · rw [if_pos hb] at h
      rcases mem_updateW h with h' | h'
      · exact Or.inl h'
      · right
        rw [h']
    · rw [if_neg hb] at h
      exact Or.inl h

theorem processChildren_content_some (env : Env) (parentId : Int) (txc : Option Int) :
    ∀ (cs : List String) (m m' : List (String × Candidate)),
      processChildren env parentId txc cs m = .ok m' →
      (∀ q ∈ m, (env.contentOf q.2.id).isSome = true) →
      ∀ q ∈ m', (env.contentOf q.2.id).isSome = true := by
  intro cs
  induction cs with
  | nil =>
    intro m m' h hm q hq
    cases h
    exact hm q hq
  | cons c rest ih =>
    intro m m' h hm q hq
    rw [show processChildren env parentId txc (c :: rest) m =
        (match isValidParcel env c parentId txc with
         | none => processChildren env parentId txc rest m
         | some pc =>
           match getInscriptionDetails env pc.id with
           | .error e => .error e
           | .ok h0 =>
             processChildren env parentId txc rest
               (stepWinner m ⟨pc.id, pc.content, h0⟩)) from rfl] at h
    cases hv : isValidParcel env c parentId txc with
    | none =>
      rw [hv] at h
      exact ih m m' h hm q hq
    | some pc =>
      rw [hv] at h
      have hred : (match some pc with
          | none => processChildren env parentId txc rest m
          | some pc =>
            match getInscriptionDetails env pc.id with
            | Except.error e => Except.error e
            | Except.ok h0 =>
              processChildren env parentId txc rest
                (stepWinner m ⟨pc.id, pc.content, h0⟩)) =
          (match getInscriptionDetails env pc.id with
          | Except.error e => Except.error e
          | Except.ok h0 =>
            processChildren env parentId txc rest
              (stepWinner m ⟨pc.id, pc.content, h0⟩)) := rfl
      rw [hred] at h
      cases hh : getInscriptionDetails env pc.id with
      | error e =>
        rw [hh] at h
        cases h
      | ok h0 =>
        rw [hh] at h
        refine ih (stepWinner m ⟨pc.id, pc.content, h0⟩) m' h ?_ q hq
        intro q' hq'
        rcases stepWinner_val_mem hq' with h' | h'
        · exact hm q' h'
        · rw [h']
          have hic := isValidParcel_id_content env c parentId txc pc hv
          show (env.contentOf pc.id).isSome = true
          rw [hic.1]
          exact hic.2

theorem validateBitmap_validParcels_fetched (env : Env) (fuel : Nat) (n : Int)
    (iid : Option String) (d : ValidationDetails) (vps : List Candidate) (p : Candidate)
    (hd : (validateBitmap env fuel n iid).details = some d)
    (hv : d.validParcels = some vps) (hp : p ∈ vps) :
    (env.contentOf p.id).isSome = true := by
  unfold validateBitmap at hd
  cases hb : validateBitmapBody env fuel n iid with
  | error e =>
    rw [hb] at hd
    injection hd with hd
    rw [← hd] at hv
    cases hv
  | ok r =>
    rw [hb] at hd
    unfold validateBitmapBody at hb
    split at hb
    · cases hb
    · split at hb
      · cases hb
        injection hd with hd
        rw [← hd] at hv
        cases hv
      · split at hb
        · cases hb
        · split at hb
          · cases hb
          · split at hb
            · cases hb
              injection hd with hd
              rw [← hd] at hv
              cases hv
            · split at hb
              · cases hb
              · cases hb
                injection hd with hd
                rw [← hd] at hv
                injection hv with hv
                rw [← hv] at hp
                rcases List.mem_map.mp hp with ⟨q, hq, hqe⟩
                have := processChildren_content_some env n _ _ [] _
                  (by assumption) (by intro q' hq'; cases hq') q hq
                rw [← hqe]
                exact this

theorem processChildren_err (env : Env) (parentId : Int) (txc : Option Int) :
    ∀ (cs : List String) (m : List (String × Candidate)),
      (∃ c ∈ cs, ∃ pc, isValidParcel env c parentId txc = some pc ∧
        env.heightOf pc.id = none) →
      processChildren env parentId txc cs m =
        .error "Failed to fetch inscription details" := by
  intro cs
  induction cs with
  | nil =>
    intro m hex
    rcases hex with ⟨c, hc, _⟩
    cases hc
  | cons c rest ih =>
    intro m hex
    rcases hex with ⟨c', hc', pc', hpc', hh'⟩
    rw [show processChildren env parentId txc (c :: rest) m =
        (match isValidParcel env c parentId txc with
         | none => processChildren env parentId txc rest m
         | some pc =>
           match getInscriptionDetails env pc.id with
           | .error e => .error e
           | .ok h0 =>
             processChildren env parentId txc rest
               (stepWinner m ⟨pc.id, pc.content, h0⟩)) from rfl]
    cases hv : isValidParcel env c parentId txc with
    | none =>
      have hcr : c' ∈ rest := by
        rcases List.mem_cons.mp hc' with he | hr
        · rw [he] at hpc'
          rw [hv] at hpc'
          cases hpc'
        · exact hr
      exact ih m ⟨c', hcr, pc', hpc', hh'⟩
    | some pc =>
      change (match getInscriptionDetails env pc.id with
          | Except.error e => Except.error e
          | Except.ok h0 =>
            processChildren env parentId txc rest
              (stepWinner m ⟨pc.id, pc.content, h0⟩)) =
          Except.error "Failed to fetch inscription details"
      cases hh : env.heightOf pc.id with
      | none =>
        rw [show getInscriptionDetails env pc.id =
            .error "Failed to fetch inscription details" by
          unfold getInscriptionDetails
          rw [hh]]
      | some h0 =>
        rw [show getInscriptionDetails env pc.id = .ok h0 by
          unfold getInscriptionDetails
          rw [hh]]
        have hcr : c' ∈ rest := by
          rcases List.mem_cons.mp hc' with he | hr
          · rw [he] at hpc'
            rw [hv] at hpc'
            injection hpc' with hpc'
            rw [hpc'] at hh
            rw [hh'] at hh
            cases hh
          · exact hr
        exact ih (stepWinner m ⟨pc.id, pc.content, h0⟩) ⟨c', hcr, pc', hpc', hh'⟩

theorem validateBitmap_children_ok (env : Env) (fuel : Nat) (n : Int)
    (iid : Option String) (rootId cont : String) (h0 : Int)
    (hroot : getBitmap env n = .ok rootId)
    (hmm : idMismatch rootId iid = false)
    (hdet : env.heightOf rootId = some h0)
    (hcont : fetchInscriptionContent env rootId = .ok cont)
    (hinc : includesStr cont (toString n) = true)
    (hend : endsWithStr cont ".bitmap" = true)
    (hsurv : ∀ c ∈ getChildrenInscriptions env fuel rootId, ∀ pc,
      isValidParcel env c n (if n = 0 then none else env.blockinfo n) = some pc →
      (env.heightOf pc.id).isSome = true) :
    validateBitmap env fuel n iid =
      { status := .valid,
        message := some ("Bitmap " ++ toString n ++ " is valid with " ++
          toString ((winnersMap (candidatesOf env n
            (if n = 0 then none else env.blockinfo n)
            (getChildrenInscriptions env fuel rootId))).map (fun p => p.2)).length ++
          " parcels"),
        details := some {
          bitmapNumber := some n,
          inscriptionId := some rootId,
          validParcels := some ((winnersMap (candidatesOf env n
            (if n = 0 then none else env.blockinfo n)
            (getChildrenInscriptions env fuel rootId))).map (fun p => p.2)),
          allChildren := some (getChildrenInscriptions env fuel rootId) } } := by
  have hpc := processChildren_eq_fold env n (if n = 0 then none else env.blockinfo n)
    (getChildrenInscriptions env fuel rootId) hsurv []
  have hbody : validateBitmapBody env fuel n iid =
      .ok { status := .valid,
            message := some ("Bitmap " ++ toString n ++ " is valid with " ++
              toString ((winnersMap (candidatesOf env n
                (if n = 0 then none else env.blockinfo n)
                (getChildrenInscriptions env fuel rootId))).map (fun p => p.2)).length ++
              " parcels"),
            details := some {
              bitmapNumber := some n,
              inscriptionId := some rootId,
              validParcels := some ((winnersMap (candidatesOf env n
                (if n = 0 then none else env.blockinfo n)
                (getChildrenInscriptions env fuel rootId))).map (fun p => p.2)),
              allChildren := some (getChildrenInscriptions env fuel rootId) } } := by
    simp only [validateBitmapBody, hroot, getInscriptionDetails, hdet, hcont, hinc, hend,
      hmm, hpc, Bool.not_true, Bool.or_self, Bool.false_eq_true, if_false, winnersMap]
  unfold validateBitmap
  rw [hbody]

theorem validateBitmap_details_failure (env : Env) (fuel : Nat) (n : Int)
    (iid : Option String) (rootId cont : String) (h0 : Int)
    (hroot : getBitmap env n = .ok rootId)
    (hmm : idMismatch rootId iid = false)
    (hdet : env.heightOf rootId = some h0)
    (hcont : fetchInscriptionContent env rootId = .ok cont)
    (hinc : includesStr cont (toString n) = true)
    (hend : endsWithStr cont ".bitmap" = true)
    (hbad : ∃ c ∈ getChildrenInscriptions env fuel rootId, ∃ pc,
      isValidParcel env c n (if n = 0 then none else env.blockinfo n) = some pc ∧
      env.heightOf pc.id = none) :
    validateBitmap env fuel n iid =
      { status := .invalid,
        message := some "Failed to fetch inscription details",
        details := some { bitmapNumber := some n, inscriptionId := iid } } := by
  have hperr := processChildren_err env n (if n = 0 then none else env.blockinfo n)
    (getChildrenInscriptions env fuel rootId) [] hbad
  have hbody : validateBitmapBody env fuel n iid =
      .error "Failed to fetch inscription details" := by
    simp only [validateBitmapBody, hroot, getInscriptionDetails, hdet, hcont, hinc, hend,
      hmm, hperr, Bool.not_true, Bool.or_self, Bool.false_eq_true, if_false]
  unfold validateBitmap
  rw [hbody]

/-- **C5 counterexample.** A child whose content fetch fails ("cbad") is
dropped from `validParcels` but still listed in `details.allChildren` — the
claim's "excluded from both" fails.  And a surviving candidate whose
details (metadata) fetch fails ("cbad2") does not merely get dropped: the
whole run lands in the catch-all and returns a blanket invalid result
carrying the fetch error, not a verdict from the remaining children. -/
theorem claim5_counterexample :
    envA.contentOf "cbad" = none ∧
    validateBitmap envA 10 1 none =
      { status := .valid,
        message := some "Bitmap 1 is valid with 1 parcels",
        details := some { bitmapNumber := some 1, inscriptionId := some "root",
                          validParcels := some [⟨"cgood", "0.1.bitmap", 100⟩],
                          allChildren := some ["cbad", "cgood"] } } ∧
    isValidParcel envB "cbad2" 1 (some 2) = some ⟨"cbad2", "1.1.bitmap"⟩ ∧
    envB.heightOf "cbad2" = none ∧
    validateBitmap envB 10 1 none =
      { status := .invalid,
        message := some "Failed to fetch inscription details",
        details := some { bitmapNumber := some 1 } } := by
  exact ⟨rfl, by decide, by decide, rfl, by decide⟩

/-- **C5 (amended).** If an individual child's content fetch fails during a
`validateBitmap` run, the run still completes with a verdict computed from
the remaining children and without raising an exception — children whose
content fetch fails are absent from the tie-break, and every recorded
winner's content fetch succeeded — but the failed child still appears in
`details.allChildren`, which always carries the full child enumeration.
If instead the inscription-details (metadata) fetch of a surviving parcel
candidate fails, the run returns the blanket catch-all `invalid` result
(still without throwing) instead of a verdict from the remaining
children. -/
theorem claim5_amended :
    (∀ (env : Env) (fuel : Nat) (n : Int) (iid : Option String)
        (d : ValidationDetails) (vps : List Candidate) (p : Candidate),
      (validateBitmap env fuel n iid).details = some d →
      d.validParcels = some vps → p ∈ vps → (env.contentOf p.id).isSome = true) ∧
    (∀ (env : Env) (fuel : Nat) (n : Int) (iid : Option String)
        (rootId cont : String) (h0 : Int),
      getBitmap env n = .ok rootId →
      idMismatch rootId iid = false →
      env.heightOf rootId = some h0 →
      fetchInscriptionContent env rootId = .ok cont →
      includesStr cont (toString n) = true →
      endsWithStr cont ".bitmap" = true →
      (∀ c ∈ getChildrenInscriptions env fuel rootId, ∀ pc,
        isValidParcel env c n (if n = 0 then none else env.blockinfo n) = some pc →
        (env.heightOf pc.id).isSome = true) →
      validateBitmap env fuel n iid =
        { status := .valid,
          message := some ("Bitmap " ++ toString n ++ " is valid with " ++
            toString ((winnersMap (candidatesOf env n
              (if n = 0 then none else env.blockinfo n)
              (getChildrenInscriptions env fuel rootId))).map (fun p => p.2)).length ++
            " parcels"),
          details := some {
            bitmapNumber := some n,
            inscriptionId := some rootId,
            validParcels := some ((winnersMap (candidatesOf env n
              (if n = 0 then none else env.blockinfo n)
              (getChildrenInscriptions env fuel rootId))).map (fun p => p.2)),
            allChildren := some (getChildrenInscriptions env fuel rootId) } }) ∧
    (∀ (env : Env) (fuel : Nat) (n : Int) (iid : Option String)
        (rootId cont : String) (h0 : Int),
      getBitmap env n = .ok rootId →
      idMismatch rootId iid = false →
      env.heightOf rootId = some h0 →
      fetchInscriptionContent env rootId = .ok cont →
      includesStr cont (toString n) = true →
      endsWithStr cont ".bitmap" = true →
      (∃ c ∈ getChildrenInscriptions env fuel rootId, ∃ pc,
        isValidParcel env c n (if n = 0 then none else env.blockinfo n) = some pc ∧
        env.heightOf pc.id = none) →
      validateBitmap env fuel n iid =
        { status := .invalid,
          message := some "Failed to fetch inscription details",
          details := some { bitmapNumber := some n, inscriptionId := iid } }) := by
  refine ⟨validateBitmap_validParcels_fetched, ?_, ?_⟩
  · intro env fuel n iid rootId cont h0 hroot hmm hdet hcont hinc hend hsurv
    exact validateBitmap_children_ok env fuel n iid rootId cont h0
      hroot hmm hdet hcont hinc hend hsurv
  · intro env fuel n iid rootId cont h0 hroot hmm hdet hcont hinc hend hbad
    exact validateBitmap_details_failure env fuel n iid rootId cont h0
      hroot hmm hdet hcont hinc hend hbad

theorem claim5_amended_witness :
    (envA.contentOf "cgood").isSome = true ∧
    validateBitmap envA 10 1 none =
      { status := .valid,
        message := some "Bitmap 1 is valid with 1 parcels",
        details := some { bitmapNumber := some 1, inscriptionId := some "root",
                          validParcels := some [⟨"cgood", "0.1.bitmap", 100⟩],
                          allChildren := some ["cbad", "cgood"] } } ∧
    validateBitmap envB 10 1 none =
      { status := .invalid,
        message := some "Failed to fetch inscription details",
        details := some { bitmapNumber := some 1 } } := by
  refine ⟨?_, ?_, ?_⟩
  · exact claim5_amended.1 envA 10 1 none
      { bitmapNumber := some 1, inscriptionId := some "root",
        validParcels := some [⟨"cgood", "0.1.bitmap", 100⟩],
        allChildren := some ["cbad", "cgood"] }
      [⟨"cgood", "0.1.bitmap", 100⟩] ⟨"cgood", "0.1.bitmap", 100⟩
      (by decide) rfl (by decide)
  · rw [claim5_amended.2.1 envA 10 1 none "root" "1.bitmap" 800
      rfl rfl rfl rfl (by decide) (by decide)
      (by
        intro c hc pc hpc
        rw [show getChildrenInscriptions envA 10 "root" = ["cbad", "cgood"] from rfl] at hc
        rcases List.mem_cons.mp hc with he | hr
        · rw [he] at hpc
          rw [show isValidParcel envA "cbad" 1
              (if (1 : Int) = 0 then none else envA.blockinfo 1) = none from rfl] at hpc
          cases hpc
        · rcases List.mem_cons.mp hr with he | hr
          · rw [he] at hpc
            rw [show isValidParcel envA "cgood" 1
                (if (1 : Int) = 0 then none else envA.blockinfo 1) =
                some ⟨"cgood", "0.1.bitmap"⟩ from rfl] at hpc
            cases hpc
            decide
          · exact absurd hr (List.not_mem_nil c))]
    decide
  · rw [claim5_amended.2.2 envB 10 1 none "root" "1.bitmap" 800
      rfl rfl rfl rfl (by decide) (by decide)
      ⟨"cbad2",
        by rw [show getChildrenInscriptions envB 10 "root" = ["cgood", "cbad2"] from rfl]
           decide,
        ⟨"cbad2", "1.1.bitmap"⟩, by decide, rfl⟩]

end CreateLasereyes
